import Mathlib

/-!
Verification of the `nsaph` domain-to-DDL compiler
(`src/python/nsaph/data_model/domain.py`) against its natural-language
specification.

The embedding below is a shallow, executable translation of the Python
source.  Dynamic dictionaries become typed structures, Python exceptions
become an explicit `Err` sum carried in `Except`, and the unbounded
Python recursion over the table tree is expressed with an explicit fuel
parameter (fuel exhaustion models Python's recursion limit; every claim
is settled at a fuel large enough for the trees involved).

Helper functions imported by `domain.py` from modules that are not part
of the sources (`nsaph.data_model.utils.split/basename`,
`nsaph.data_model.model.index_method/INDEX_NAME_PATTERN/INDEX_DDL_PATTERN`)
are modelled from the spec; each such definition says so in its doc
comment.
-/

/-- Python exception taxonomy as observed in `domain.py`:
`config` models `raise Exception(...)` (configuration errors),
`lookup` models `raise LookupError(...)`,
`keyError` models a `KeyError` from a missing dictionary key,
`typeError` models a `TypeError` (e.g. iterating or concatenating `None`),
`indexError` models an `IndexError` (e.g. `""[0]`). -/
inductive Err where
  | config (msg : String)
  | lookup (msg : String)
  | keyError (key : String)
  | typeError (msg : String)
  | indexError (msg : String)
deriving DecidableEq, Repr

deriving instance DecidableEq for Except

/-- Python's substring test `pat in s`. -/
def strContains (s pat : String) : Bool :=
  decide (pat.toList <:+: s.toList)

/-- Python's `str(x)` on a value that may be `None`: `format` renders the
string itself or the literal `None`. -/
def pyStr : Option String → String
  | some s => s
  | none => "None"

/-- Python's `str.lower()` (ASCII suffices for this code base), computed
character-wise over the string's data so that it evaluates by kernel
reduction. -/
def pyLower (s : String) : String := ⟨s.data.map Char.toLower⟩

/-- Python's `str.strip()`: whitespace removed from both ends. -/
def pyStrip (s : String) : String :=
  ⟨((s.data.dropWhile Char.isWhitespace).reverse.dropWhile
      Char.isWhitespace).reverse⟩

/-- Python's `str.startswith`, computed over the strings' data. -/
def strStartsWith (s p : String) : Bool :=
  p.data.isPrefixOf s.data

/-- Python's `str.endswith`, computed over the strings' data. -/
def strEndsWith (s p : String) : Bool :=
  p.data.isSuffixOf s.data

/-- Python's iteration over a value that may be `None`
(`for c in constraint` raises `TypeError` when `constraint is None`). -/
def pyIter : Option (List String) → Except Err (List String)
  | some l => .ok l
  | none => .error (.typeError "NoneType object is not iterable")

/-- Modelled from the spec: `basename` (imported from
`nsaph.data_model.utils`, not under `src/`) maps a fully qualified
`schema.table` name to its last dot-separated component, mirroring the
`table.split('.')[-1]` idiom used in `get_index_ddl`. -/
def basename (t : String) : String :=
  ⟨(t.data.splitOn '.').getLastD t.data⟩

/-- `source` attribute of a column entry (`{"source": {"type": ..., "code": ...}}`).
Only the dictionary form, which is the form `is_generated`/`column_spec`
inspect, is modelled. -/
structure SourceSpec where
  stype : Option String
  code : Option String
deriving DecidableEq, Repr

/-- `index` attribute of a column entry: either a bare string (an index
name) or an object with optional `name` and `using`. -/
inductive IndexSpec where
  | str (s : String)
  | obj (name : Option String) (method : Option String)
deriving DecidableEq, Repr

/-- Attributes of a column entry (the dictionary under the column name). -/
structure ColAttrs where
  type : Option String := none
  index : Option IndexSpec := none
  source : Option SourceSpec := none
deriving DecidableEq, Repr

/-- One column entry of a table definition: a bare name, or a name with
attributes. -/
inductive ColumnEntry where
  | name (s : String)
  | withAttrs (s : String) (a : ColAttrs)
deriving DecidableEq, Repr

/-- Modelled from the spec: `split` (imported from
`nsaph.data_model.utils`, not under `src/`) normalizes a column entry to
`(name, attributes)`; a bare string name yields empty attributes. -/
def split : ColumnEntry → String × ColAttrs
  | .name s => (s, {})
  | .withAttrs s a => (s, a)

/-- Names of a column-entry list, in order. -/
def colNames (columns : List ColumnEntry) : List String :=
  columns.map (fun c => (split c).1)

/-- `target` of an `invalid.records` policy: optional `schema` and
`table`, each a literal or a `$`-prefixed reference. -/
structure TargetSpec where
  schema : Option String := none
  table : Option String := none
deriving DecidableEq, Repr

/-- An `invalid.records` policy: required `action`, optional `target`. -/
structure InvalidRecords where
  action : String
  target : Option TargetSpec := none
deriving DecidableEq, Repr

/-- A node of the table tree.  `children = none` models a definition
without a `children` key; `children = some []` models an explicit empty
`children` mapping (Python distinguishes the two: `root["children"]`
raises `KeyError` in the first case). -/
inductive TableDef where
  | mk (columns : List ColumnEntry)
       (primary_key : Option (List String))
       (invalid_records : Option InvalidRecords)
       (children : Option (List (String × TableDef)))

def TableDef.columns : TableDef → List ColumnEntry
  | .mk c _ _ _ => c

def TableDef.primary_key : TableDef → Option (List String)
  | .mk _ p _ _ => p

def TableDef.invalid_records : TableDef → Option InvalidRecords
  | .mk _ _ i _ => i

def TableDef.children : TableDef → Option (List (String × TableDef))
  | .mk _ _ _ ch => ch

/-- The state of a `Domain` object after `__init__`:
`domain` is the domain name, `schema` the resolved schema
(domain-level, else global, else none), `specVars` models string-valued
lookups `self.spec[self.domain][k]` (used by `$`-indirection and by the
spillover default `spec["schema"]`), `index_method` models the external
Index Method Registry (`nsaph.data_model.model.index_method`, not under
`src/`, as the spec describes it: a map from bare column name to an
optional default index method), `extraSchemas` the values of the
`schema.<suffix>` keys in insertion order, and `tables` the root table
tree. -/
structure Domain where
  domain : String
  schema : Option String
  specVars : String → Option String
  index_policy : String
  index_method : String → Option String
  conucrrent_indices : Bool := false
  extraSchemas : List String := []
  tables : List (String × TableDef) := []

/-- `Domain.__init__`'s normalization of the `index` policy value. -/
def resolveIndexPolicy : Option String → Except Err String
  | none => .ok "selected"
  | some p =>
    if p = "selected" then .ok "selected"
    else if p = "explicit" then .ok "explicit"
    else if p = "all" ∨ p = "unless excluded" then .ok "all"
    else .error (.config ("Invalid indexing policy: " ++ p))

/-- `Domain.fqn`. -/
def fqn (d : Domain) (table : String) : String :=
  match d.schema with
  | some s => s ++ "." ++ table
  | none => table

/-- `Domain.fqn` applied to a possibly-`None` table name (as
`add_fk_validation` does with `pt`): with a schema set, Python raises
`TypeError` concatenating `None`; without one it returns `None`, which
`format` then renders as `"None"`. -/
def fqnOpt (d : Domain) : Option String → Except Err String
  | some t => .ok (fqn d t)
  | none =>
    match d.schema with
    | some _ => .error (.typeError "can only concatenate str (not NoneType) to str")
    | none => .ok "None"

/-- The `AUDIT_INSERT` template of `domain.py` (exact text, including
trailing blanks). -/
def AUDIT_INSERT (target columns values reason : String) : String :=
  "INSERT INTO " ++ target ++ " \n                (" ++ columns ++
  ", REASON) \n                VALUES (" ++ values ++ ", '" ++ reason ++ "');"

/-- The `VALIDATION_PROC` template of `domain.py` (exact text, including
trailing blanks and the leading newline). -/
def VALIDATION_PROC (schema source parent_table condition_pk action_pk
    condition_fk action_fk condition_dup action_dup : String) : String :=
  "\nCREATE OR REPLACE FUNCTION " ++ schema ++ ".validate_" ++ source ++
  "() RETURNS TRIGGER AS $" ++ schema ++ "_" ++ source ++ "_validation$\n" ++
  "-- Validate foreign key for " ++ schema ++ "." ++ source ++ "\n" ++
  "    BEGIN\n" ++
  "        IF (" ++ condition_pk ++ ") THEN\n" ++
  "            " ++ action_pk ++ "\n" ++
  "            RETURN NULL;\n" ++
  "        END IF;\n" ++
  "        IF NOT EXISTS (\n" ++
  "            SELECT FROM " ++ parent_table ++ "\n" ++
  "            WHERE\n" ++
  "                " ++ condition_fk ++ " \n" ++
  "        ) THEN\n" ++
  "            " ++ action_fk ++ "\n" ++
  "            RETURN NULL;\n" ++
  "        END IF;\n" ++
  "        IF EXISTS (\n" ++
  "            SELECT FROM " ++ schema ++ "." ++ source ++ "\n" ++
  "            WHERE\n" ++
  "                " ++ condition_dup ++ " \n" ++
  "        ) THEN\n" ++
  "            " ++ action_dup ++ "\n" ++
  "            RETURN NULL;\n" ++
  "        END IF;\n" ++
  "        RETURN NEW;\n" ++
  "    END;\n" ++
  " \n" ++
  "$" ++ schema ++ "_" ++ source ++ "_validation$ LANGUAGE plpgsql;\n"

/-- The `VALIDATION_TRIGGER` template of `domain.py` (exact text; the
caller applies `.strip()`). -/
def VALIDATION_TRIGGER (schema name table : String) : String :=
  "\n    CREATE TRIGGER " ++ schema ++ "_" ++ name ++
  "_validation BEFORE INSERT ON " ++ table ++
  "\n        FOR EACH ROW EXECUTE FUNCTION " ++ schema ++ ".validate_" ++
  name ++ "();\n"

/-- `Domain.is_generated`, applied (as the source always does) to the
attribute part of a split column entry. -/
def isGenerated (a : ColAttrs) : Bool :=
  match a.source with
  | some s =>
    match s.stype with
    | some t => pyLower t == "generated"
    | none => false
  | none => false

/-- `Domain.is_array`. -/
def isArray (a : ColAttrs) : Bool :=
  match a.type with
  | some t => strEndsWith t "]"
  | none => false

/-- `Domain.column_spec`. -/
def columnSpec (column : ColumnEntry) : Except Err String :=
  let (name, a) := split column
  let t := a.type.getD "VARCHAR"
  if isGenerated a then
    match a.source.bind SourceSpec.code with
    | none => .error (.config "Generated column must specify the compute code")
    | some code => .ok (name ++ " " ++ t ++ " " ++ code)
  else
    .ok (name ++ " " ++ t)

/-- `[self.column_spec(column) for column in columns]`: the comprehension
aborts at the first raising element. -/
def columnSpecs : List ColumnEntry → Except Err (List String)
  | [] => .ok []
  | c :: rest =>
    match columnSpec c with
    | .error e => .error e
    | .ok s =>
      match columnSpecs rest with
      | .error e => .error e
      | .ok ss => .ok (s :: ss)

/-- `Domain.need_index`. -/
def needIndex (d : Domain) (column : ColumnEntry) : Bool :=
  if d.index_policy = "all" then true
  else
    let (n, c) := split column
    if c.index.isSome then true
    else if d.index_policy = "selected" then (d.index_method n).isSome
    else false

/-- Modelled from the spec: `INDEX_NAME_PATTERN` (imported from
`nsaph.data_model.model`, not under `src/`) — a deterministic index name
derived from table and column names. -/
def INDEX_NAME_PATTERN (table column : String) : String :=
  table ++ "_" ++ column ++ "_idx"

/-- Modelled from the spec: `INDEX_DDL_PATTERN` (imported from
`nsaph.data_model.model`, not under `src/`) — a `CREATE INDEX` statement
built from an option, an index name, a table, a column and a method. -/
def INDEX_DDL_PATTERN (option name table column method : String) : String :=
  "CREATE INDEX " ++ option ++ " " ++ name ++ " ON " ++ table ++
  " USING " ++ method ++ " (" ++ column ++ ")"

/-- `Domain.get_index_ddl`.  Mirrors the source's duck typing: the
`"index" in column` test on a bare-string entry is Python's substring
test, and subscripting such an entry raises `TypeError`. -/
def getIndexDdl (d : Domain) (table : String) (column : ColumnEntry) :
    Except Err String :=
  let option := if d.conucrrent_indices then "CONCURRENTLY" else ""
  let idxInfo : Except Err (Option String × Option String) :=
    match column with
    | .name s =>
      if strContains s "index" then
        .error (.typeError "string indices must be integers")
      else .ok (none, none)
    | .withAttrs _ a =>
      match a.index with
      | none => .ok (none, none)
      | some (.str iname) => .ok (some iname, none)
      | some (.obj iname method) => .ok (iname, method)
  match idxInfo with
  | .error e => .error e
  | .ok (iname, method) =>
    let (cname, attrs) := split column
    let method :=
      match method with
      | some m => m
      | none => if isArray attrs then "GIN" else "BTREE"
    let iname :=
      match iname with
      | some s => if s = "" then INDEX_NAME_PATTERN (basename table) cname else s
      | none => INDEX_NAME_PATTERN (basename table) cname
    .ok (INDEX_DDL_PATTERN option iname table cname method ++ ";")

/-- The per-column index loop of `ddl_for_node` (appends to
`self.indices`; a raising `get_index_ddl` aborts the loop). -/
def indexStmtsFor (d : Domain) (table : String) :
    List ColumnEntry → Except Err (List String)
  | [] => .ok []
  | c :: rest =>
    if needIndex d c then
      match getIndexDdl d table c with
      | .error e => .error e
      | .ok s =>
        match indexStmtsFor d table rest with
        | .error e => .error e
        | .ok ss => .ok (s :: ss)
    else indexStmtsFor d table rest

/-- Resolution of a possibly `$`-prefixed value against the domain-level
spec (`if ts[0] == '$': ts = spec[ts[1:]]`). -/
def resolveDollar (d : Domain) (s : String) : Except Err String :=
  match s.data with
  | [] => .error (.indexError "string index out of range")
  | c :: rest =>
    if c = '$' then
      match d.specVars ⟨rest⟩ with
      | some v => .ok v
      | none => .error (.keyError ⟨rest⟩)
    else .ok s

/-- The body of `Domain.spillover_table`, phrased on the definition's
`invalid.records` value (the only part of the definition the source
reads). -/
def spilloverTableCore (d : Domain) (table : String) :
    Option InvalidRecords → Except Err (Option String)
  | none => .ok none
  | some v =>
    let action := pyLower v.action
    if action = "insert" then
      match v.target with
      | none => .error (.keyError "target")
      | some tgt =>
        match (match tgt.schema with
               | some ts => resolveDollar d ts
               | none =>
                 match d.specVars "schema" with
                 | some s => .ok s
                 | none => .error (.keyError "schema")) with
        | .error e => .error e
        | .ok ts =>
          match (match tgt.table with
                 | some tt => resolveDollar d tt
                 | none => .ok table) with
          | .error e => .error e
          | .ok tt => .ok (some (ts ++ "." ++ tt))
    else .ok none

/-- `Domain.spillover_table`. -/
def spilloverTable (d : Domain) (table : String) (definition : TableDef) :
    Except Err (Option String) :=
  spilloverTableCore d table definition.invalid_records

/-- `Domain.add_fk_validation`.  Returns the pair of statements the
source appends to `self.ddl` (the rendered procedure and the stripped
trigger). -/
def addFkValidation (d : Domain) (table : String) (pk : Option (List String))
    (action : String) (target : Option String) (columns : List ColumnEntry)
    (pt : Option String) (fk_columns : Option (List String)) :
    Except Err (String × String) :=
  let actions : Except Err (String × String × String) :=
    if action = "insert" then
      let cc := (columns.filter (fun c => !isGenerated (split c).2)).map
        (fun c => (split c).1)
      let vv := cc.map (fun c => "NEW." ++ c)
      let audit := fun r =>
        AUDIT_INSERT (pyStr target) (String.intercalate "," cc)
          (String.intercalate "," vv) r
      .ok (audit "DUPLICATE", audit "FOREIGN KEY", audit "PRIMARY KEY")
    else if action = "ignore" then
      .ok ("", "", "")
    else
      .error (.config ("Invalid action on validation for table " ++ table ++
        ": " ++ action))
  match actions with
  | .error e => .error e
  | .ok (action_dup, action_fk, action_pk) =>
    match pyIter pk with
    | .error e => .error e
    | .ok pks =>
      match pyIter fk_columns with
      | .error e => .error e
      | .ok fkcols =>
        let condition_dup := String.intercalate "\n\t\t\t\tAND "
          (pks.map (fun c => "NEW." ++ c ++ " = " ++ c))
        let condition_fk := String.intercalate "\n\t\t\t\tAND "
          (fkcols.map (fun c => "NEW." ++ c ++ " = " ++ c))
        let condition_pk := String.intercalate "\n\t\t\t\tOR "
          (pks.map (fun c => "NEW." ++ c ++ " IS NULL "))
        let t := basename table
        match fqnOpt d pt with
        | .error e => .error e
        | .ok parent_table =>
          let proc := VALIDATION_PROC (pyStr d.schema) t parent_table
            condition_pk action_pk condition_fk action_fk
            condition_dup action_dup
          let trig := pyStrip (VALIDATION_TRIGGER (pyStr d.schema) t table)
          .ok (proc, trig)

/-- Information a child's compilation reads from its parent node: the
parent's basename, its `primary_key`, and its (already saturated) column
list.  These are the only parts of `parent` that `ddl_for_node`
dereferences. -/
structure ParentInfo where
  pname : String
  ppk : Option (List String)
  pcols : List ColumnEntry

/-- The FK-column inheritance step of `ddl_for_node`: for every parent
column whose name is a parent primary-key column and is not already among
the child's column names, append that parent column definition.  The name
set `cnames` is computed once, from the child's original columns, exactly
as in the source. -/
def saturate (columns : List ColumnEntry) (fk_columns : List String)
    (pcols : List ColumnEntry) : List ColumnEntry :=
  columns ++ pcols.filter (fun pc =>
    fk_columns.contains (split pc).1 && !(colNames columns).contains (split pc).1)

/-- The parent-handling prologue of `ddl_for_node` (lines 161-173):
requires the parent's primary key, and returns the foreign-key data plus
the saturated column list. -/
def checkParent (parent : Option ParentInfo) (columns : List ColumnEntry) :
    Except Err (Option (String × List String) × List ColumnEntry) :=
  match parent with
  | none => .ok (none, columns)
  | some p =>
    match p.ppk with
    | none => .error (.config ("Parent table " ++ p.pname ++
        " must define primary key"))
    | some fk_columns =>
      .ok (some (p.pname, fk_columns), saturate columns fk_columns p.pcols)

/-- The rendered `CONSTRAINT ... FOREIGN KEY ...` clause. -/
def fkConstraint (d : Domain) (table_basename ptable : String)
    (fk_columns : List String) : String :=
  "CONSTRAINT " ++ table_basename ++ "_to_" ++ ptable ++ " FOREIGN KEY (" ++
  String.intercalate ", " fk_columns ++ ") REFERENCES " ++ fqn d ptable ++
  " (" ++ String.intercalate ", " fk_columns ++ ")"

/-- `(self.CREATE + " (\n\t{features}\n);")` rendering. -/
def mkCreateTable (name : String) (features : List String) : String :=
  "CREATE TABLE " ++ name ++ " (\n\t" ++ String.intercalate ",\n\t" features ++
  "\n);"

/-- The `invalid.records` block of `ddl_for_node` (lines 188-198): the
optional spillover `CREATE TABLE` followed by the validation procedure and
trigger, in the order they are appended to `self.ddl`. -/
def invalidRecordsStmts (d : Domain) (table_basename : String)
    (pk : Option (List String)) (inv : Option InvalidRecords)
    (fkinfo : Option (String × List String))
    (columns : List ColumnEntry) (features : List String) :
    Except Err (List String) :=
  match inv with
  | none => .ok []
  | some v =>
    let action := pyLower v.action
    match spilloverTableCore d table_basename (some v) with
    | .error e => .error e
    | .ok t2 =>
      let spillStmts :=
        match t2 with
        | some t2s =>
          let ff := (features.filter (fun f =>
              !strContains f "CONSTRAINT" && !strContains f "PRIMARY KEY")) ++
            ["REASON VARCHAR(16)",
             "recorded_at TIMESTAMP DEFAULT CURRENT_TIMESTAMP "]
          [mkCreateTable t2s ff]
        | none => []
      match addFkValidation d (fqn d table_basename) pk
          action t2 columns (fkinfo.map Prod.fst) (fkinfo.map Prod.snd) with
      | .error e => .error e
      | .ok (proc, trig) => .ok (spillStmts ++ [proc, trig])

/-- The `PRIMARY KEY (...)` feature clause, if a primary key is
declared. -/
def pkFeatureOpt : Option (List String) → List String
  | some pk_columns => ["PRIMARY KEY (" ++ String.intercalate ", " pk_columns ++ ")"]
  | none => []

/-- The foreign-key feature clause, if the node is parented. -/
def fkFeatureOpt (d : Domain) (table_basename : String) :
    Option (String × List String) → List String
  | some (pn, fk_columns) => [fkConstraint d table_basename pn fk_columns]
  | none => []

mutual
/-- `Domain.ddl_for_node`, with explicit fuel in place of Python's
unbounded recursion.  On success it returns the updated node definition
(Python mutates `definition["columns"]` and the children in place), the
statements appended to `self.ddl`, and the statements appended to
`self.indices`, in order. -/
def ddlForNode (d : Domain) : Nat → String → TableDef → Option ParentInfo →
    Except Err (TableDef × List String × List String)
  | 0, _, _, _ => .error (.typeError "maximum recursion depth exceeded")
  | fuel + 1, table_basename, definition, parent =>
    match definition with
    | .mk columns0 pk inv children =>
      match checkParent parent columns0 with
      | .error e => .error e
      | .ok (fkinfo, columns) =>
        match columnSpecs columns with
        | .error e => .error e
        | .ok colFeatures =>
          let features := colFeatures ++ pkFeatureOpt pk ++
            fkFeatureOpt d table_basename fkinfo
          let create_table := mkCreateTable (fqn d table_basename) features
          match invalidRecordsStmts d table_basename pk inv
              fkinfo columns features with
          | .error e => .error e
          | .ok vStmts =>
            match indexStmtsFor d (fqn d table_basename) columns with
            | .error e => .error e
            | .ok idxStmts =>
              match children with
              | none =>
                .ok (.mk columns pk inv none, create_table :: vStmts, idxStmts)
              | some cs =>
                match ddlForChildren d fuel
                    ⟨table_basename, pk, columns⟩ cs with
                | .error e => .error e
                | .ok (cs', cdd, cii) =>
                  .ok (.mk columns pk inv (some cs'),
                       (create_table :: vStmts) ++ cdd, idxStmts ++ cii)

/-- The child-recursion loop of `ddl_for_node` (and, with `parent`
information absent, the top-level table loop of `init`). -/
def ddlForChildren (d : Domain) : Nat → ParentInfo →
    List (String × TableDef) →
    Except Err (List (String × TableDef) × List String × List String)
  | 0, _, _ => .error (.typeError "maximum recursion depth exceeded")
  | _ + 1, _, [] => .ok ([], [], [])
  | fuel + 1, par, (cn, cd) :: rest =>
    match ddlForNode d fuel cn cd (some par) with
    | .error e => .error e
    | .ok (cd', dd, ii) =>
      match ddlForChildren d fuel par rest with
      | .error e => .error e
      | .ok (rest', dd2, ii2) => .ok ((cn, cd') :: rest', dd ++ dd2, ii ++ ii2)
end

/-- The top-level table loop of `Domain.init` (each root node is compiled
with `parent = None`). -/
def ddlForRoots (d : Domain) : Nat → List (String × TableDef) →
    Except Err (List (String × TableDef) × List String × List String)
  | 0, _ => .error (.typeError "maximum recursion depth exceeded")
  | _ + 1, [] => .ok ([], [], [])
  | fuel + 1, (n, nd) :: rest =>
    match ddlForNode d fuel n nd none with
    | .error e => .error e
    | .ok (nd', dd, ii) =>
      match ddlForRoots d fuel rest with
      | .error e => .error e
      | .ok (rest', dd2, ii2) => .ok ((n, nd') :: rest', dd ++ dd2, ii ++ ii2)

/-- `Domain.init`: the schema statements followed by the DDL of every
root table.  Returns the updated table tree (Python's in-place column
mutation), the accumulated `self.ddl`, and the index statements this run
appends to `self.indices`. -/
def initDomain (d : Domain) (fuel : Nat) :
    Except Err (List (String × TableDef) × List String × List String) :=
  let schemaStmts :=
    (match d.schema with
     | some s => ["CREATE SCHEMA IF NOT EXISTS " ++ s ++ ";"]
     | none => []) ++
    d.extraSchemas.map (fun s => "CREATE SCHEMA IF NOT EXISTS " ++ s ++ ";")
  match ddlForRoots d fuel d.tables with
  | .error e => .error e
  | .ok (tables', dd, ii) => .ok (tables', schemaStmts ++ dd, ii)

mutual
/-- One step of `Domain.find` on a table mapping: the membership test
first, then the recursion into each entry's children, in order. -/
def findStep (fuel : Nat) (table : String) (tables : List (String × TableDef)) :
    Except Err (Option TableDef) :=
  match fuel with
  | 0 => .error (.typeError "maximum recursion depth exceeded")
  | fuel + 1 =>
    match tables.lookup table with
    | some t => .ok (some t)
    | none => findLoop fuel table tables

/-- The `for t in tables: d = self.find(table, tables[t])` loop of
`Domain.find`.  Entering an entry dereferences `root["children"]`, which
raises `KeyError` when the definition has no `children` key. -/
def findLoop (fuel : Nat) (table : String) :
    List (String × TableDef) → Except Err (Option TableDef)
  | [] => .ok none
  | (_, td) :: rest =>
    match fuel with
    | 0 => .error (.typeError "maximum recursion depth exceeded")
    | fuel + 1 =>
      match td.children with
      | none => .error (.keyError "children")
      | some cs =>
        match findStep fuel table cs with
        | .error e => .error e
        | .ok (some r) => .ok (some r)
        | .ok none => findLoop fuel table rest
end

/-- `Domain.find` from the domain root. -/
def findTable (d : Domain) (fuel : Nat) (table : String) :
    Except Err (Option TableDef) :=
  findStep fuel table d.tables

mutual
/-- `Domain.find_dependent`: the table's fully qualified name, the
dependents of every child (each re-located from the domain root by
name, as the source does), then the spillover table if declared. -/
def findDependent (d : Domain) (fuel : Nat) (table : String) :
    Except Err (List String) :=
  match fuel with
  | 0 => .error (.typeError "maximum recursion depth exceeded")
  | fuel + 1 =>
    match findTable d fuel table with
    | .error e => .error e
    | .ok none => .error (.lookup ("Table " ++ table ++
        " does not exist in domain " ++ d.domain))
    | .ok (some t) =>
      match (match t.children with
             | none => (.ok [fqn d table] : Except Err (List String))
             | some cs => findDependentChildren d fuel table cs) with
      | .error e => .error e
      | .ok result =>
        match spilloverTable d table t with
        | .error e => .error e
        | .ok (some t2) => .ok (result ++ [t2])
        | .ok none => .ok result

/-- The `for child in t["children"]` loop of `find_dependent`,
accumulating onto the singleton `[self.fqn(table)]`. -/
def findDependentChildren (d : Domain) (fuel : Nat) (table : String)
    (cs : List (String × TableDef)) : Except Err (List String) :=
  match fuel with
  | 0 => .error (.typeError "maximum recursion depth exceeded")
  | fuel + 1 =>
    match cs with
    | [] => .ok [fqn d table]
    | (cn, _) :: rest =>
      match findDependent d fuel cn with
      | .error e => .error e
      | .ok sub =>
        match findDependentChildren d fuel table rest with
        | .error e => .error e
        | .ok acc => .ok (acc ++ sub)
end

/-- `Domain.matches` (`matches` is a reserved word in Lean, hence the
name `matchesStmt`). -/
def matchesStmt (create_statement : String) (list_of_tables : List String) : Bool :=
  let s := pyStrip create_statement
  list_of_tables.any (fun t =>
    strStartsWith s ("CREATE TABLE " ++ t) ||
    (["CREATE TRIGGER", "CREATE OR REPLACE FUNCTION"].any (fun c =>
      strStartsWith s c && strContains s t)))

/-- The statement-selection logic of `Domain.create`: with a truthy
(non-empty) allow-list only matching statements are executed, otherwise
the whole DDL list is. -/
def createStatements (ddl : List String) :
    Option (List String) → List String
  | some l => if l.isEmpty then ddl else ddl.filter (fun s => matchesStmt s l)
  | none => ddl

/-- The `AND`-joined equality condition `NEW.c = c` over a column list,
as `add_fk_validation` builds it for the duplicate and foreign-key
checks. -/
def eqCondition (cols : List String) : String :=
  String.intercalate "\n\t\t\t\tAND " (cols.map (fun c => "NEW." ++ c ++ " = " ++ c))

/-- The `OR`-joined `NEW.c IS NULL` condition over the primary-key
columns, as `add_fk_validation` builds it for the completeness check. -/
def nullCondition (cols : List String) : String :=
  String.intercalate "\n\t\t\t\tOR " (cols.map (fun c => "NEW." ++ c ++ " IS NULL "))

/-- The names of the non-generated columns of an entry list (the `cc`
list of `add_fk_validation`). -/
def nonGeneratedNames (columns : List ColumnEntry) : List String :=
  (columns.filter (fun c => !isGenerated (split c).2)).map (fun c => (split c).1)

/-- The audit `INSERT` statement `add_fk_validation` generates for one
reason under `action: insert`: the new row's non-generated column values
plus the literal reason, into the spillover target. -/
def auditFor (target : String) (columns : List ColumnEntry) (reason : String) :
    String :=
  AUDIT_INSERT target (String.intercalate "," (nonGeneratedNames columns))
    (String.intercalate ","
      ((nonGeneratedNames columns).map (fun c => "NEW." ++ c))) reason

def exVars : String → Option String := fun k => if k = "schema" then some "s" else none

/-- A small concrete domain used by witnesses and counterexamples:
schema `s`, index policy `explicit`, a root table `orders` (primary key
`id`) with one child `line_items` (which, like a typical leaf, has no
`children` key of its own). -/
def salesDomain : Domain :=
  { domain := "sales", schema := some "s", specVars := exVars,
    index_policy := "explicit", index_method := fun _ => none,
    tables := [("orders",
      .mk [.name "id"] (some ["id"]) none
        (some [("line_items", .mk [.name "line_id"] none none none)]))] }

/-- The sales domain under the `selected` index policy, with a registry
that knows a default method for the column name `year`. -/
def selDomain : Domain :=
  { salesDomain with
    index_policy := "selected",
    index_method := fun n => if n = "year" then some "BTREE" else none }

/-- The spillover feature list: the owning table's rendered clauses with
every line containing `CONSTRAINT` or `PRIMARY KEY` removed, plus the
`REASON` column and the defaulted timestamp column. -/
def spillFeatures (features : List String) : List String :=
  (features.filter (fun f =>
    !strContains f "CONSTRAINT" && !strContains f "PRIMARY KEY")) ++
  ["REASON VARCHAR(16)", "recorded_at TIMESTAMP DEFAULT CURRENT_TIMESTAMP "]

/-- Stated from the claim's words (C4): a statement is executed iff its
(stripped) text starts with `CREATE TABLE <name>` for some listed
basename, or starts with `CREATE TRIGGER` or `CREATE OR REPLACE
FUNCTION` and textually contains a listed basename. -/
def specClaimMatches (s : String) (lot : List String) : Bool :=
  let t := pyStrip s
  lot.any (fun n => strStartsWith t ("CREATE TABLE " ++ n)) ||
  ((strStartsWith t "CREATE TRIGGER" ||
    strStartsWith t "CREATE OR REPLACE FUNCTION") &&
   lot.any (fun n => strContains t n))

/-- The DDL list the compiler produces for `salesDomain`. -/
def salesDdl : List String :=
  match initDomain salesDomain 10 with
  | .ok r => r.2.1
  | .error _ => []

/-- The table tree of the sales domain after one compilation:
`line_items` has inherited a copy of the parent primary-key column
`id`. -/
def salesTablesCompiled : List (String × TableDef) :=
  [("orders",
    .mk [.name "id"] (some ["id"]) none
      (some [("line_items",
        .mk [.name "line_id", .name "id"] none none none)]))]

/-- Every statement a node's compilation appends to the DDL list starts
as a table creation, a validation function or a trigger. -/
def nodeStmtShape (s : String) : Prop :=
  strStartsWith s "CREATE TABLE " = true ∨
  strStartsWith s "\nCREATE OR REPLACE FUNCTION " = true ∨
  strStartsWith s "CREATE TRIGGER " = true

/-- The schema statements `init` places at the head of `self.ddl`. -/
def schemaStmtsOf (d : Domain) : List String :=
  (match d.schema with
   | some s => ["CREATE SCHEMA IF NOT EXISTS " ++ s ++ ";"]
   | none => []) ++
  d.extraSchemas.map (fun s => "CREATE SCHEMA IF NOT EXISTS " ++ s ++ ";")

/-- A node `(n, nd)` occurs in a table tree: either as an immediate
entry, or inside the `children` mapping of some entry. -/
inductive NodeIn : List (String × TableDef) → String → TableDef → Prop where
  | here {ts : List (String × TableDef)} {n : String} {nd : TableDef}
      (hmem : (n, nd) ∈ ts) : NodeIn ts n nd
  | deeper {ts : List (String × TableDef)} {m : String} {md : TableDef}
      {cs : List (String × TableDef)} {n : String} {nd : TableDef}
      (hmem : (m, md) ∈ ts) (hch : TableDef.children md = some cs)
      (hin : NodeIn cs n nd) : NodeIn ts n nd

/-- The statements a node's own `ddl_for_node` call produced occur as a
contiguous segment of the list `X`. -/
def DdlSegment (d : Domain) (n : String) (nd : TableDef)
    (X : List String) : Prop :=
  ∃ g p r pre post, ddlForNode d (g + 1) n nd p = .ok r ∧
    X = pre ++ r.2.1 ++ post

/-- Example child node: primary key `line_id`, an `invalid.records`
policy inserting into `aux.bad_lines`, and no `children` key. -/
def exD8Child : TableDef :=
  .mk [.name "line_id"] (some ["line_id"])
    (some { action := "insert",
            target := some { schema := some "aux",
                             table := some "bad_lines" } })
    none

/-- Example root node `orders` with primary key `id` and one child. -/
def exD8Orders : TableDef :=
  .mk [.name "id"] (some ["id"]) none (some [("line_items", exD8Child)])

/-- Example domain exercising schema statements, a parent/child pair and
an `invalid.records` policy. -/
def exD8 : Domain :=
  { domain := "sales"
    schema := some "s"
    specVars := fun _ => none
    index_policy := "explicit"
    index_method := fun _ => none
    tables := [("orders", exD8Orders)] }

/-- The example domain's table tree after compilation (the child's
column list saturated with the parent's `id`). -/
def exD8Tables : List (String × TableDef) :=
  [("orders", .mk [.name "id"] (some ["id"]) none
     (some [("line_items", .mk [.name "line_id", .name "id"]
        (some ["line_id"])
        (some { action := "insert",
                target := some { schema := some "aux",
                                 table := some "bad_lines" } })
        none)]))]

/-- The example domain's compiled output. -/
def exD8compiled : List (String × TableDef) × List String × List String :=
  (exD8Tables,
   ["CREATE SCHEMA IF NOT EXISTS s;",
    "CREATE TABLE s.orders (\n\tid VARCHAR,\n\tPRIMARY KEY (id)\n);",
    "CREATE TABLE s.line_items (\n\tline_id VARCHAR,\n\tid VARCHAR,\n\tPRIMARY KEY (line_id),\n\tCONSTRAINT line_items_to_orders FOREIGN KEY (id) REFERENCES s.orders (id)\n);",
    "CREATE TABLE aux.bad_lines (\n\tline_id VARCHAR,\n\tid VARCHAR,\n\tREASON VARCHAR(16),\n\trecorded_at TIMESTAMP DEFAULT CURRENT_TIMESTAMP \n);",
    "\nCREATE OR REPLACE FUNCTION s.validate_line_items() RETURNS TRIGGER AS $s_line_items_validation$\n-- Validate foreign key for s.line_items\n    BEGIN\n        IF (NEW.line_id IS NULL ) THEN\n            INSERT INTO aux.bad_lines \n                (line_id,id, REASON) \n                VALUES (NEW.line_id,NEW.id, 'PRIMARY KEY');\n            RETURN NULL;\n        END IF;\n        IF NOT EXISTS (\n            SELECT FROM s.orders\n            WHERE\n                NEW.id = id \n        ) THEN\n            INSERT INTO aux.bad_lines \n                (line_id,id, REASON) \n                VALUES (NEW.line_id,NEW.id, 'FOREIGN KEY');\n            RETURN NULL;\n        END IF;\n        IF EXISTS (\n            SELECT FROM s.line_items\n            WHERE\n                NEW.line_id = line_id \n        ) THEN\n            INSERT INTO aux.bad_lines \n                (line_id,id, REASON) \n                VALUES (NEW.line_id,NEW.id, 'DUPLICATE');\n            RETURN NULL;\n        END IF;\n        RETURN NEW;\n    END;\n \n$s_line_items_validation$ LANGUAGE plpgsql;\n",
    "CREATE TRIGGER s_line_items_validation BEFORE INSERT ON s.line_items\n        FOR EACH ROW EXECUTE FUNCTION s.validate_line_items();"],
   [])

/-- C1.  For every table with a primary key, a parent and parent
primary-key columns, `add_fk_validation` renders the `VALIDATION_PROC`
template — whose fixed text checks, in this order, (1) the `OR`-joined
`NEW.c IS NULL` primary-key completeness condition, (2) the
`NOT EXISTS` foreign-key condition against the parent table, (3) the
`EXISTS` duplicate condition against the table itself, each failing
branch running its action and then `RETURN NULL`, with `RETURN NEW`
only after all three — pairing the `'PRIMARY KEY'`-tagged audit action
with the completeness branch, `'FOREIGN KEY'` with the existence branch
and `'DUPLICATE'` with the duplication branch (empty actions under
`ignore`).  The second conjunct pins the template's fixed order on
concrete markers: the rendered text runs pk-branch, fk-branch,
dup-branch, `RETURN NEW`, in that order. -/
theorem C1_validation_order :
    (∀ (d : Domain) (table t2 ptn : String) (pks fkcols : List String)
      (cols : List ColumnEntry) (action : String),
      action = "insert" ∨ action = "ignore" →
      addFkValidation d table (some pks) action (some t2) cols (some ptn)
          (some fkcols) =
        .ok (VALIDATION_PROC (pyStr d.schema) (basename table) (fqn d ptn)
              (nullCondition pks)
              (if action = "insert" then auditFor t2 cols "PRIMARY KEY" else "")
              (eqCondition fkcols)
              (if action = "insert" then auditFor t2 cols "FOREIGN KEY" else "")
              (eqCondition pks)
              (if action = "insert" then auditFor t2 cols "DUPLICATE" else ""),
             pyStrip (VALIDATION_TRIGGER (pyStr d.schema) (basename table) table))) ∧
    VALIDATION_PROC "S" "T" "PARENT" "COND_PK" "ACT_PK" "COND_FK" "ACT_FK"
        "COND_DUP" "ACT_DUP" =
      "\nCREATE OR REPLACE FUNCTION S.validate_T() RETURNS TRIGGER AS $S_T_validation$\n-- Validate foreign key for S.T\n    BEGIN\n        IF (COND_PK) THEN\n            ACT_PK\n            RETURN NULL;\n        END IF;\n        IF NOT EXISTS (\n            SELECT FROM PARENT\n            WHERE\n                COND_FK \n        ) THEN\n            ACT_FK\n            RETURN NULL;\n        END IF;\n        IF EXISTS (\n            SELECT FROM S.T\n            WHERE\n                COND_DUP \n        ) THEN\n            ACT_DUP\n            RETURN NULL;\n        END IF;\n        RETURN NEW;\n    END;\n \n$S_T_validation$ LANGUAGE plpgsql;\n" := by
  constructor
  · intro d table t2 ptn pks fkcols cols action h
    rcases h with h | h <;> subst h <;>
      simp [addFkValidation, pyIter, fqnOpt, auditFor, nonGeneratedNames,
        eqCondition, nullCondition, pyStr]
  · simp [VALIDATION_PROC]

/-- Witness for C1 at a concrete input (action `insert`, empty and
non-empty key lists exercised). -/
theorem C1_validation_order_witness :
    ("insert" = "insert" ∨ "insert" = "ignore") ∧
    addFkValidation salesDomain "s.orders" (some ["id"]) "insert"
        (some "aux.orders") [.name "id"] (some "parent") (some ["pid"]) =
      .ok (VALIDATION_PROC (pyStr salesDomain.schema) (basename "s.orders")
            (fqn salesDomain "parent")
            (nullCondition ["id"])
            (if "insert" = "insert" then auditFor "aux.orders" [.name "id"] "PRIMARY KEY" else "")
            (eqCondition ["pid"])
            (if "insert" = "insert" then auditFor "aux.orders" [.name "id"] "FOREIGN KEY" else "")
            (eqCondition ["id"])
            (if "insert" = "insert" then auditFor "aux.orders" [.name "id"] "DUPLICATE" else ""),
           pyStrip (VALIDATION_TRIGGER (pyStr salesDomain.schema)
             (basename "s.orders") "s.orders")) := by
  refine ⟨Or.inl rfl, ?_⟩
  exact C1_validation_order.1 salesDomain "s.orders" "aux.orders" "parent"
    ["id"] ["pid"] [.name "id"] "insert" (Or.inl rfl)

/-- C2.  Compiling any node under a parent whose definition declares no
primary key fails immediately with the configuration error naming the
parent table; the failing call returns no DDL at all, so in particular
no `CREATE TABLE` for the child is ever appended. -/
theorem C2_parent_pk_required (d : Domain) (fuel : Nat) (tname : String)
    (deff : TableDef) (pn : String) (pcols : List ColumnEntry) :
    ddlForNode d (fuel + 1) tname deff (some ⟨pn, none, pcols⟩) =
      .error (.config ("Parent table " ++ pn ++ " must define primary key")) := by
  cases deff with
  | mk cols pk inv ch => simp [ddlForNode, checkParent]

/-- C9.  `need_index` decides indexability exactly by the active policy:
`all` indexes every column; `explicit` indexes a column iff its
attributes carry an `index` marker; `selected` indexes a column iff it
carries an `index` marker or the registry yields a default index method
for its bare name. -/
theorem C9_need_index_policy (d : Domain) (c : ColumnEntry) :
    (d.index_policy = "all" → needIndex d c = true) ∧
    (d.index_policy = "explicit" →
      (needIndex d c = true ↔ (split c).2.index.isSome = true)) ∧
    (d.index_policy = "selected" →
      (needIndex d c = true ↔
        ((split c).2.index.isSome = true ∨
         (d.index_method (split c).1).isSome = true))) := by
  rcases hsc : split c with ⟨n, a⟩
  refine ⟨fun h => ?_, fun h => ?_, fun h => ?_⟩ <;>
    simp [needIndex, h, hsc]

/-- Witness for C9 under the `selected` policy at a concrete column. -/
theorem C9_need_index_policy_witness :
    selDomain.index_policy = "selected" ∧
    (needIndex selDomain (.name "year") = true ↔
      ((split (.name "year")).2.index.isSome = true ∨
       (selDomain.index_method (split (.name "year")).1).isSome = true)) :=
  ⟨rfl, (C9_need_index_policy selDomain (.name "year")).2.2 rfl⟩

/-- C10.  `add_fk_validation` dereferences the node's primary key and the
parent's key columns unconditionally, so a node that declares
`invalid.records` but has no parent fails while building the conditions
with an uncontrolled `TypeError` (iterating `None`), not a configuration
error; the same holds under a parent when the node lacks its own primary
key.  Columns must render and the spillover target must resolve (the
hypotheses), since those steps run first. -/
theorem C10_unchecked_dereference :
    (∀ (d : Domain) (fuel : Nat) (tname : String) (cols : List ColumnEntry)
      (pk : Option (List String)) (v : InvalidRecords)
      (ch : Option (List (String × TableDef))) (fs : List String)
      (t2 : Option String),
      pyLower v.action = "insert" ∨ pyLower v.action = "ignore" →
      columnSpecs cols = .ok fs →
      spilloverTable d tname (.mk cols pk (some v) ch) = .ok t2 →
      ddlForNode d (fuel + 1) tname (.mk cols pk (some v) ch) none =
        .error (.typeError "NoneType object is not iterable")) ∧
    (∀ (d : Domain) (fuel : Nat) (tname pn : String)
      (cols pcols : List ColumnEntry) (fkcols : List String)
      (v : InvalidRecords) (ch : Option (List (String × TableDef)))
      (fs : List String) (t2 : Option String),
      pyLower v.action = "insert" ∨ pyLower v.action = "ignore" →
      columnSpecs (saturate cols fkcols pcols) = .ok fs →
      spilloverTable d tname (.mk cols none (some v) ch) = .ok t2 →
      ddlForNode d (fuel + 1) tname (.mk cols none (some v) ch)
          (some ⟨pn, some fkcols, pcols⟩) =
        .error (.typeError "NoneType object is not iterable")) := by
  constructor
  · intro d fuel tname cols pk v ch fs t2 hact hcs hspill
    have hspill' : spilloverTableCore d tname (some v) = .ok t2 := hspill
    simp only [ddlForNode, checkParent]
    rw [hcs]
    simp only [invalidRecordsStmts, hspill']
    rcases hact with h | h <;> cases pk <;>
      simp [addFkValidation, h, pyIter]
  · intro d fuel tname pn cols pcols fkcols v ch fs t2 hact hcs hspill
    have hspill' : spilloverTableCore d tname (some v) = .ok t2 := hspill
    simp only [ddlForNode, checkParent]
    rw [hcs]
    simp only [invalidRecordsStmts, hspill']
    rcases hact with h | h <;>
      simp [addFkValidation, h, pyIter]

/-- Witness for C10: a parentless root table with `invalid.records`
(action `ignore`) and its own primary key still crashes with the
`TypeError`. -/
theorem C10_unchecked_dereference_witness :
    (pyLower "ignore" = "insert" ∨ pyLower "ignore" = "ignore") ∧
    columnSpecs [.name "id"] = .ok ["id VARCHAR"] ∧
    spilloverTable salesDomain "orders"
        (.mk [.name "id"] (some ["id"]) (some ⟨"ignore", none⟩) none) = .ok none ∧
    ddlForNode salesDomain 5 "orders"
        (.mk [.name "id"] (some ["id"]) (some ⟨"ignore", none⟩) none) none =
      .error (.typeError "NoneType object is not iterable") :=
  ⟨Or.inr (by decide), by decide, by decide,
   C10_unchecked_dereference.1 salesDomain 4 "orders" [.name "id"]
     (some ["id"]) ⟨"ignore", none⟩ none ["id VARCHAR"] none
     (Or.inr (by decide)) (by decide) (by decide)⟩

/-- C5.  The `invalid.records` block of `ddl_for_node`: with action
`insert` (and a resolving spillover target) it emits the spillover
`CREATE TABLE` over `spillFeatures` and the paired validation procedure
and trigger; with action `ignore` it emits the procedure and trigger
only, with all three audit actions empty; any other action value is a
configuration error naming the table and action. -/
theorem C5_invalid_records_actions :
    (∀ (d : Domain) (tname : String) (columns : List ColumnEntry)
      (pks : List String) (act : String) (tgt : Option TargetSpec)
      (pn : String)
      (fkcols : List String) (features : List String) (t2 : String),
      pyLower act = "insert" →
      spilloverTableCore d tname (some ⟨act, tgt⟩) = .ok (some t2) →
      invalidRecordsStmts d tname (some pks) (some ⟨act, tgt⟩)
          (some (pn, fkcols)) columns features =
        .ok [mkCreateTable t2 (spillFeatures features),
             VALIDATION_PROC (pyStr d.schema) (basename (fqn d tname))
               (fqn d pn)
               (nullCondition pks) (auditFor t2 columns "PRIMARY KEY")
               (eqCondition fkcols) (auditFor t2 columns "FOREIGN KEY")
               (eqCondition pks) (auditFor t2 columns "DUPLICATE"),
             pyStrip (VALIDATION_TRIGGER (pyStr d.schema)
               (basename (fqn d tname)) (fqn d tname))]) ∧
    (∀ (d : Domain) (tname : String) (columns : List ColumnEntry)
      (pks : List String) (act : String) (tgt : Option TargetSpec)
      (pn : String)
      (fkcols : List String) (features : List String),
      pyLower act = "ignore" →
      invalidRecordsStmts d tname (some pks) (some ⟨act, tgt⟩)
          (some (pn, fkcols)) columns features =
        .ok [VALIDATION_PROC (pyStr d.schema) (basename (fqn d tname))
               (fqn d pn)
               (nullCondition pks) "" (eqCondition fkcols) ""
               (eqCondition pks) "",
             pyStrip (VALIDATION_TRIGGER (pyStr d.schema)
               (basename (fqn d tname)) (fqn d tname))]) ∧
    (∀ (d : Domain) (tname : String) (columns : List ColumnEntry)
      (pk : Option (List String)) (act : String) (tgt : Option TargetSpec)
      (fkinfo : Option (String × List String)) (features : List String),
      pyLower act ≠ "insert" →
      pyLower act ≠ "ignore" →
      invalidRecordsStmts d tname pk (some ⟨act, tgt⟩)
          fkinfo columns features =
        .error (.config ("Invalid action on validation for table " ++
          fqn d tname ++ ": " ++ pyLower act))) := by
  refine ⟨?_, ?_, ?_⟩
  · intro d tname columns pks act tgt pn fkcols features t2 hact hspill
    simp [invalidRecordsStmts, hspill, hact,
      addFkValidation, pyIter, fqnOpt, spillFeatures, auditFor,
      nonGeneratedNames, eqCondition, nullCondition, pyStr]
  · intro d tname columns pks act tgt pn fkcols features hact
    simp [invalidRecordsStmts, spilloverTableCore, hact,
      addFkValidation, pyIter, fqnOpt, eqCondition, nullCondition, pyStr]
  · intro d tname columns pk act tgt fkinfo features h1 h2
    simp [invalidRecordsStmts, spilloverTableCore,
      addFkValidation, h1, h2]

/-- Witness for C5 at a concrete `insert` instance. -/
theorem C5_invalid_records_actions_witness :
    pyLower "insert" = "insert" ∧
    spilloverTableCore salesDomain "orders"
        (some ⟨"insert", some ⟨some "aux", none⟩⟩) =
      .ok (some "aux.orders") ∧
    invalidRecordsStmts salesDomain "orders" (some ["id"])
        (some ⟨"insert", some ⟨some "aux", none⟩⟩)
        (some ("parent", ["pid"])) [.name "id"]
        ["id VARCHAR", "PRIMARY KEY (id)"] =
      .ok [mkCreateTable "aux.orders"
             (spillFeatures ["id VARCHAR", "PRIMARY KEY (id)"]),
           VALIDATION_PROC (pyStr salesDomain.schema)
             (basename (fqn salesDomain "orders")) (fqn salesDomain "parent")
             (nullCondition ["id"]) (auditFor "aux.orders" [.name "id"] "PRIMARY KEY")
             (eqCondition ["pid"]) (auditFor "aux.orders" [.name "id"] "FOREIGN KEY")
             (eqCondition ["id"]) (auditFor "aux.orders" [.name "id"] "DUPLICATE"),
           pyStrip (VALIDATION_TRIGGER (pyStr salesDomain.schema)
             (basename (fqn salesDomain "orders")) (fqn salesDomain "orders"))] :=
  ⟨by decide, by decide,
   C5_invalid_records_actions.1 salesDomain "orders" [.name "id"]
     ["id"] "insert" (some ⟨some "aux", none⟩) "parent" ["pid"]
     ["id VARCHAR", "PRIMARY KEY (id)"] "aux.orders" (by decide) (by decide)⟩

/-- C6.  Evaluation of `find_dependent` at the failing input: on the
sales tree (`orders` → `line_items`, the leaf holding no `children`
key), looking up a table absent from the tree raises `KeyError
('children')` from `find`'s unguarded `root["children"]` access — the
`LookupError` branch of `find_dependent` is unreachable here, although
its own `raise LookupError` shows that a lookup error is the intended
outcome. -/
theorem C6_find_dependent_keyerror :
    findDependent salesDomain 10 "zzz" = .error (.keyError "children") := by
  rfl

/-- The source's `matches` agrees with the claim's per-statement
characterization. -/
theorem matchesStmt_eq_specClaimMatches (s : String) (lot : List String) :
    matchesStmt s lot = specClaimMatches s lot := by
  induction lot with
  | nil => simp [matchesStmt, specClaimMatches]
  | cons t ts ih =>
    simp only [matchesStmt, specClaimMatches, List.any_cons, List.any_nil] at ih ⊢
    cases h1 : strStartsWith (pyStrip s) ("CREATE TABLE " ++ t) <;>
      cases h2 : strStartsWith (pyStrip s) "CREATE TRIGGER" <;>
        cases h3 : strStartsWith (pyStrip s) "CREATE OR REPLACE FUNCTION" <;>
          cases h4 : strContains (pyStrip s) t <;>
            simp_all [Bool.or_comm, Bool.or_assoc, Bool.or_left_comm,
              Bool.and_or_distrib_left]

/-- Counterexample to C4 as stated: for the sales domain (which has a
schema), `create(connection, ["orders"])` executes no statement at all —
in particular not the orders `CREATE TABLE`, which is in the DDL but is
rendered with its schema-qualified name `s.orders` and therefore does
not start with `CREATE TABLE orders`. -/
theorem C4_counterexample :
    createStatements salesDdl (some ["orders"]) = [] ∧
    "CREATE TABLE s.orders (\n\tid VARCHAR,\n\tPRIMARY KEY (id)\n);" ∈ salesDdl := by
  constructor
  · decide
  · decide

/-- C4 (amended).  With a non-empty allow-list, the statements executed
are exactly those whose stripped text starts with `CREATE TABLE <name>`
for a listed name, or starts with `CREATE TRIGGER`/`CREATE OR REPLACE
FUNCTION` and textually contains a listed name; because the table
statements of a schema-qualified domain are rendered with `schema.`
prefixes, `create(connection, ["orders"])` on the sales domain executes
nothing, and the orders `CREATE TABLE` is matched only by listing the
qualified name `s.orders` (no `line_items` statement is executed in
either case). -/
theorem C4_allowlist_filter :
    (∀ (ddl : List String) (t : String) (ts : List String),
      createStatements ddl (some (t :: ts)) =
        ddl.filter (fun s => specClaimMatches s (t :: ts))) ∧
    createStatements salesDdl (some ["s.orders"]) =
      ["CREATE TABLE s.orders (\n\tid VARCHAR,\n\tPRIMARY KEY (id)\n);"] ∧
    createStatements salesDdl (some ["orders"]) = [] := by
  refine ⟨?_, by decide, by decide⟩
  intro ddl t ts
  simp [createStatements, matchesStmt_eq_specClaimMatches]

/-- `colNames` distributes over append. -/
theorem colNames_append (a b : List ColumnEntry) :
    colNames (a ++ b) = colNames a ++ colNames b :=
  List.map_append _ a b

/-- Filtering entries by a predicate on their names commutes with taking
names. -/
theorem colNames_filter_name (pcols : List ColumnEntry) (q : String → Bool) :
    colNames (pcols.filter (fun pc => q (split pc).1)) =
      (colNames pcols).filter q := by
  induction pcols with
  | nil => rfl
  | cons pc rest ih =>
    by_cases h : q (split pc).1 = true <;>
      simp [colNames, List.filter_cons, h] at ih ⊢ <;> simp [ih]

/-- Counting lemma for the saturated column list: under the structural
invariants (unique names on each side, parent primary-key columns
present among the parent's columns), every parent primary-key column
name occurs exactly once after saturation. -/
theorem count_saturate (cols pcols : List ColumnEntry) (fkcols : List String)
    (hsub : ∀ c ∈ fkcols, c ∈ colNames pcols)
    (hnodupP : (colNames pcols).Nodup)
    (hnodupC : (colNames cols).Nodup) :
    ∀ c ∈ fkcols, (colNames (saturate cols fkcols pcols)).count c = 1 := by
  intro c hc
  have hfilter := colNames_filter_name pcols
    (fun x => fkcols.contains x && !(colNames cols).contains x)
  have hq : colNames (saturate cols fkcols pcols) =
      colNames cols ++ (colNames pcols).filter
        (fun x => fkcols.contains x && !(colNames cols).contains x) := by
    rw [saturate, colNames_append]
    exact congrArg (fun l => colNames cols ++ l) hfilter
  rw [hq, List.count_append]
  by_cases hmem : c ∈ colNames cols
  · have h1 : (colNames cols).count c = 1 :=
      List.count_eq_one_of_mem hnodupC hmem
    have h2 : (((colNames pcols).filter
        (fun x => fkcols.contains x && !(colNames cols).contains x)).count c) = 0 := by
      rw [List.count_eq_zero]
      intro hcf
      have hpred := List.of_mem_filter hcf
      simp [hmem] at hpred
    omega
  · have h1 : (colNames cols).count c = 0 := List.count_eq_zero.mpr hmem
    have hpred : (fun x => fkcols.contains x && !(colNames cols).contains x) c = true := by
      simp [hc, hmem]
    have h2 : (((colNames pcols).filter
        (fun x => fkcols.contains x && !(colNames cols).contains x)).count c) =
        (colNames pcols).count c := List.count_filter hpred
    rw [h2, List.count_eq_one_of_mem hnodupP (hsub c hc)]
    omega

/-- On success, compiling a parented node yields exactly the saturated
column list on the updated definition. -/
theorem ddlForNode_parent_columns (d : Domain) (fuel : Nat) (tname pn : String)
    (cols pcols : List ColumnEntry) (pk : Option (List String))
    (inv : Option InvalidRecords) (ch : Option (List (String × TableDef)))
    (fkcols : List String) (res : TableDef × List String × List String)
    (h : ddlForNode d (fuel + 1) tname (.mk cols pk inv ch)
          (some ⟨pn, some fkcols, pcols⟩) = .ok res) :
    res.1.columns = saturate cols fkcols pcols := by
  simp only [ddlForNode, checkParent] at h
  split at h
  · exact Except.noConfusion h
  · split at h
    · exact Except.noConfusion h
    · split at h
      · exact Except.noConfusion h
      · split at h
        · injection h with h
          subst h
          rfl
        · split at h
          · exact Except.noConfusion h
          · injection h with h
            subst h
            rfl

/-- C3.  For every parented node (with a well-formed parent: unique
column names, primary-key columns present among the parent's columns;
and unique column names on the child), the compiled child's column list
contains every parent primary-key column name exactly once: a copy is
appended only when the name is absent from the child, and never twice. -/
theorem C3_fk_columns_once (d : Domain) (fuel : Nat) (tname pn : String)
    (cols pcols : List ColumnEntry) (pk : Option (List String))
    (inv : Option InvalidRecords) (ch : Option (List (String × TableDef)))
    (fkcols : List String) {res : TableDef × List String × List String}
    (hsub : ∀ c ∈ fkcols, c ∈ colNames pcols)
    (hnodupP : (colNames pcols).Nodup)
    (hnodupC : (colNames cols).Nodup)
    (h : ddlForNode d (fuel + 1) tname (.mk cols pk inv ch)
          (some ⟨pn, some fkcols, pcols⟩) = .ok res) :
    ∀ c ∈ fkcols, (colNames res.1.columns).count c = 1 := by
  rw [ddlForNode_parent_columns d fuel tname pn cols pcols pk inv ch fkcols res h]
  exact count_saturate cols pcols fkcols hsub hnodupP hnodupC

/-- Witness for C3: compiling `line_items` under `orders` in the sales
domain yields a column list holding the inherited `id` exactly once. -/
theorem C3_fk_columns_once_witness :
    (∀ c ∈ ["id"], c ∈ colNames [ColumnEntry.name "id"]) ∧
    (colNames [ColumnEntry.name "id"]).Nodup ∧
    (colNames [ColumnEntry.name "line_id"]).Nodup ∧
    ∀ c ∈ ["id"],
      (colNames [ColumnEntry.name "line_id", ColumnEntry.name "id"]).count c = 1 :=
  ⟨by decide, by decide, by decide,
   C3_fk_columns_once salesDomain 4 "line_items" "orders"
     [.name "line_id"] [.name "id"] none none none ["id"]
     (by decide) (by decide) (by decide) rfl⟩

/-- Saturation is idempotent: every parent primary-key column admitted by
the filter is already present by name after the first pass, so a second
pass appends nothing. -/
theorem saturate_idem (cols pcols : List ColumnEntry) (fkcols : List String) :
    saturate (saturate cols fkcols pcols) fkcols pcols =
      saturate cols fkcols pcols := by
  have h : pcols.filter (fun pc =>
      fkcols.contains (split pc).1 &&
      !(colNames (saturate cols fkcols pcols)).contains (split pc).1) = [] := by
    rw [List.filter_eq_nil_iff]
    intro pc hpc
    by_cases hfk : (split pc).1 ∈ fkcols
    · have hmem : (split pc).1 ∈ colNames (saturate cols fkcols pcols) := by
        by_cases hc : (split pc).1 ∈ colNames cols
        · rw [saturate, colNames_append]
          exact List.mem_append_left _ hc
        · rw [saturate, colNames_append]
          refine List.mem_append_right _ ?_
          simp only [colNames, List.mem_map]
          have hb1 : fkcols.contains (split pc).1 = true := by simpa using hfk
          have hb2 : (colNames cols).contains (split pc).1 = false := by
            simpa using hc
          exact ⟨pc, List.mem_filter.mpr ⟨hpc, by
            simp only [Bool.and_eq_true, Bool.not_eq_true']
            exact ⟨hb1, hb2⟩⟩, rfl⟩
      simp [hmem]
    · simp [hfk]
  conv_lhs => rw [saturate]
  rw [h, List.append_nil]

/-- Re-running `ddl_for_node` on its own successful output (with the same
parent information) reproduces that output, provided the parent prologue
fixes the already-saturated column list. -/
theorem reRunNode_aux (d : Domain) (fuel : Nat) (tname : String)
    (cols COLS : List ColumnEntry) (pk : Option (List String))
    (inv : Option InvalidRecords) (ch : Option (List (String × TableDef)))
    (par : Option ParentInfo) (fkinfo : Option (String × List String))
    (res : TableDef × List String × List String)
    (ihC : ∀ (par' : ParentInfo) (cs : List (String × TableDef))
      (res' : List (String × TableDef) × List String × List String),
      ddlForChildren d fuel par' cs = .ok res' →
      ddlForChildren d fuel par' res'.1 = .ok res')
    (h1 : checkParent par cols = .ok (fkinfo, COLS))
    (h2 : checkParent par COLS = .ok (fkinfo, COLS))
    (h : ddlForNode d (fuel + 1) tname (.mk cols pk inv ch) par = .ok res) :
    ddlForNode d (fuel + 1) tname res.1 par = .ok res := by
  simp only [ddlForNode] at h
  simp only [h1] at h
  cases hcs : columnSpecs COLS with
  | error e => simp only [hcs] at h; exact Except.noConfusion h
  | ok colFeatures =>
    simp only [hcs] at h
    cases hinv : invalidRecordsStmts d tname pk inv fkinfo COLS
        (colFeatures ++ pkFeatureOpt pk ++ fkFeatureOpt d tname fkinfo) with
    | error e => simp only [hinv] at h; exact Except.noConfusion h
    | ok vStmts =>
      simp only [hinv] at h
      cases hidx : indexStmtsFor d (fqn d tname) COLS with
      | error e => simp only [hidx] at h; exact Except.noConfusion h
      | ok idxStmts =>
        simp only [hidx] at h
        cases ch with
        | none =>
          injection h with h'
          subst h'
          simp only [ddlForNode, h2, hcs, hinv, hidx]
        | some cs =>
          cases hch : ddlForChildren d fuel ⟨tname, pk, COLS⟩ cs with
          | error e => simp only [hch] at h; exact Except.noConfusion h
          | ok r3 =>
            simp only [hch] at h
            obtain ⟨cs', cdd, cii⟩ := r3
            injection h with h'
            subst h'
            have hch2 := ihC ⟨tname, pk, COLS⟩ cs (cs', cdd, cii) hch
            simp only [ddlForNode, h2, hcs, hinv, hidx]
            simp only at hch2
            simp only [hch2]

/-- Joint re-run lemma: a second compilation of the updated tree (same
fuel, same parent information) reproduces the first run's result, for
nodes, child lists and root lists alike. -/
theorem reRunAll : ∀ fuel : Nat,
    (∀ (d : Domain) (tname : String) (deff : TableDef)
      (par : Option ParentInfo) (res : TableDef × List String × List String),
      ddlForNode d fuel tname deff par = .ok res →
      ddlForNode d fuel tname res.1 par = .ok res) ∧
    (∀ (d : Domain) (par : ParentInfo) (cs : List (String × TableDef))
      (res : List (String × TableDef) × List String × List String),
      ddlForChildren d fuel par cs = .ok res →
      ddlForChildren d fuel par res.1 = .ok res) ∧
    (∀ (d : Domain) (ts : List (String × TableDef))
      (res : List (String × TableDef) × List String × List String),
      ddlForRoots d fuel ts = .ok res →
      ddlForRoots d fuel res.1 = .ok res) := by
  intro fuel
  induction fuel with
  | zero =>
    refine ⟨?_, ?_, ?_⟩
    · intro d tname deff par res h
      simp [ddlForNode] at h
    · intro d par cs res h
      simp [ddlForChildren] at h
    · intro d ts res h
      simp [ddlForRoots] at h
  | succ n ih =>
    obtain ⟨ihN, ihC, ihR⟩ := ih
    refine ⟨?_, ?_, ?_⟩
    · intro d tname deff par res h
      obtain ⟨cols, pk, inv, ch⟩ := deff
      rcases par with _ | ⟨pn, ppk, pcols⟩
      · exact reRunNode_aux d n tname cols cols pk inv ch none none res
          (fun p c r => ihC d p c r) rfl rfl h
      · rcases ppk with _ | fkcols
        · simp [ddlForNode, checkParent] at h
        · exact reRunNode_aux d n tname cols (saturate cols fkcols pcols) pk inv
            ch (some ⟨pn, some fkcols, pcols⟩) (some (pn, fkcols)) res
            (fun p c r => ihC d p c r) rfl
            (by simp [checkParent, saturate_idem]) h
    · intro d par cs res h
      cases cs with
      | nil =>
        simp only [ddlForChildren] at h
        injection h with h'
        subst h'
        rfl
      | cons hd tl =>
        obtain ⟨cn, cd⟩ := hd
        simp only [ddlForChildren] at h
        cases h1 : ddlForNode d n cn cd (some par) with
        | error e => simp only [h1] at h; exact Except.noConfusion h
        | ok r1 =>
          simp only [h1] at h
          obtain ⟨cd', dd, ii⟩ := r1
          cases h2 : ddlForChildren d n par tl with
          | error e => simp only [h2] at h; exact Except.noConfusion h
          | ok r2 =>
            simp only [h2] at h
            obtain ⟨tl', dd2, ii2⟩ := r2
            injection h with h'
            subst h'
            have h1' := ihN d cn cd (some par) (cd', dd, ii) h1
            have h2' := ihC d par tl (tl', dd2, ii2) h2
            simp only at h1' h2'
            simp only [ddlForChildren, h1', h2']
    · intro d ts res h
      cases ts with
      | nil =>
        simp only [ddlForRoots] at h
        injection h with h'
        subst h'
        rfl
      | cons hd tl =>
        obtain ⟨cn, cd⟩ := hd
        simp only [ddlForRoots] at h
        cases h1 : ddlForNode d n cn cd none with
        | error e => simp only [h1] at h; exact Except.noConfusion h
        | ok r1 =>
          simp only [h1] at h
          obtain ⟨cd', dd, ii⟩ := r1
          cases h2 : ddlForRoots d n tl with
          | error e => simp only [h2] at h; exact Except.noConfusion h
          | ok r2 =>
            simp only [h2] at h
            obtain ⟨tl', dd2, ii2⟩ := r2
            injection h with h'
            subst h'
            have h1' := ihN d cn cd none (cd', dd, ii) h1
            have h2' := ihR d tl (tl', dd2, ii2) h2
            simp only at h1' h2'
            simp only [ddlForRoots, h1', h2']

/-- Replacing the `tables` field leaves `fqn` unchanged. -/
theorem fqn_setTables (d : Domain) (X : List (String × TableDef)) (t : String) :
    fqn { d with tables := X } t = fqn d t := rfl

/-- Replacing the `tables` field leaves the `invalid.records` block
unchanged. -/
theorem invalidRecordsStmts_setTables (d : Domain)
    (X : List (String × TableDef)) (t : String) (pk : Option (List String))
    (inv : Option InvalidRecords) (fkinfo : Option (String × List String))
    (cols : List ColumnEntry) (fs : List String) :
    invalidRecordsStmts { d with tables := X } t pk inv fkinfo cols fs =
      invalidRecordsStmts d t pk inv fkinfo cols fs := rfl

/-- Replacing the `tables` field leaves `need_index` unchanged. -/
theorem needIndex_setTables (d : Domain) (X : List (String × TableDef))
    (c : ColumnEntry) :
    needIndex { d with tables := X } c = needIndex d c := rfl

/-- Replacing the `tables` field leaves `get_index_ddl` unchanged. -/
theorem getIndexDdl_setTables (d : Domain) (X : List (String × TableDef))
    (t : String) (c : ColumnEntry) :
    getIndexDdl { d with tables := X } t c = getIndexDdl d t c := rfl

/-- Replacing the `tables` field leaves the index loop unchanged. -/
theorem indexStmtsFor_setTables (d : Domain) (X : List (String × TableDef))
    (t : String) : ∀ cols : List ColumnEntry,
    indexStmtsFor { d with tables := X } t cols = indexStmtsFor d t cols := by
  intro cols
  induction cols with
  | nil => rfl
  | cons c rest ih =>
    simp only [indexStmtsFor, needIndex_setTables, getIndexDdl_setTables, ih]

/-- Replacing the `tables` field leaves the foreign-key clause
unchanged. -/
theorem fkFeatureOpt_setTables (d : Domain) (X : List (String × TableDef))
    (t : String) (fkinfo : Option (String × List String)) :
    fkFeatureOpt { d with tables := X } t fkinfo = fkFeatureOpt d t fkinfo := rfl

/-- The compiler never reads the domain's `tables` field during
`ddl_for_node`: replacing it (as the second `init()` run effectively
does after the first run's in-place mutation) changes nothing. -/
theorem ctx_tables_irrel : ∀ (fuel : Nat) (d : Domain)
    (X : List (String × TableDef)),
    (∀ (tname : String) (deff : TableDef) (par : Option ParentInfo),
      ddlForNode { d with tables := X } fuel tname deff par =
        ddlForNode d fuel tname deff par) ∧
    (∀ (par : ParentInfo) (cs : List (String × TableDef)),
      ddlForChildren { d with tables := X } fuel par cs =
        ddlForChildren d fuel par cs) ∧
    (∀ (ts : List (String × TableDef)),
      ddlForRoots { d with tables := X } fuel ts =
        ddlForRoots d fuel ts) := by
  intro fuel
  induction fuel with
  | zero =>
    intro d X
    exact ⟨fun _ _ _ => rfl, fun _ _ => rfl, fun _ => rfl⟩
  | succ n ih =>
    intro d X
    obtain ⟨ihN, ihC, ihR⟩ := ih d X
    refine ⟨?_, ?_, ?_⟩
    · intro tname deff par
      obtain ⟨cols, pk, inv, ch⟩ := deff
      simp only [ddlForNode, ihC, fqn_setTables, invalidRecordsStmts_setTables,
        indexStmtsFor_setTables, fkFeatureOpt_setTables]
    · intro par cs
      cases cs with
      | nil => rfl
      | cons hd tl =>
        obtain ⟨cn, cd⟩ := hd
        simp only [ddlForChildren, ihN, ihC]
    · intro ts
      cases ts with
      | nil => rfl
      | cons hd tl =>
        obtain ⟨cn, cd⟩ := hd
        simp only [ddlForRoots, ihN, ihR]

/-- C7.  `init()` is idempotent: when a first compilation succeeds, a
second `init()` on the same `Domain` instance — whose table tree now
carries the first run's in-place column mutations, all other state being
untouched — produces the identical updated tree, a byte-identical DDL
list, and the identical index statements. -/
theorem C7_init_idempotent (d : Domain) (fuel : Nat)
    {res : List (String × TableDef) × List String × List String}
    (h : initDomain d fuel = .ok res) :
    initDomain { d with tables := res.1 } fuel = .ok res := by
  unfold initDomain at h ⊢
  cases hr : ddlForRoots d fuel d.tables with
  | error e => simp only [hr] at h; exact Except.noConfusion h
  | ok r =>
    simp only [hr] at h
    obtain ⟨ts', dd, ii⟩ := r
    injection h with h'
    subst h'
    have hroots := (reRunAll fuel).2.2 d d.tables (ts', dd, ii) hr
    simp only at hroots
    have hcongr := (ctx_tables_irrel fuel d ts').2.2 ts'
    simp only [hcongr, hroots]

/-- Witness for C7: compiling the sales domain twice yields the same
tree and byte-identical DDL. -/
theorem C7_init_idempotent_witness :
    initDomain salesDomain 10 = .ok (salesTablesCompiled, salesDdl, []) ∧
    initDomain { salesDomain with tables := salesTablesCompiled } 10 =
      .ok (salesTablesCompiled, salesDdl, []) :=
  ⟨rfl, C7_init_idempotent salesDomain 10 rfl⟩

theorem strData_append (a b : String) : (a ++ b).data = a.data ++ b.data := rfl

theorem strStartsWith_append_left (a b : String) :
    strStartsWith (a ++ b) a = true := by
  simp only [strStartsWith, strData_append, List.isPrefixOf_iff_prefix]
  exact List.prefix_append _ _

theorem strStartsWith_append_right (s t a : String)
    (h : strStartsWith s a = true) : strStartsWith (s ++ t) a = true := by
  simp only [strStartsWith, strData_append, List.isPrefixOf_iff_prefix] at h ⊢
  exact h.trans (List.prefix_append _ _)

theorem strStartsWith_refl (s : String) : strStartsWith s s = true := by
  simp only [strStartsWith, List.isPrefixOf_iff_prefix]
  exact List.prefix_refl _

theorem strStartsWith_trans {s p q : String}
    (h1 : strStartsWith s p = true) (h2 : strStartsWith p q = true) :
    strStartsWith s q = true := by
  simp only [strStartsWith, List.isPrefixOf_iff_prefix] at h1 h2 ⊢
  exact h2.trans h1

theorem startsWith_conflict {s p q : String}
    (hpq : p.data.isPrefixOf q.data = false)
    (hqp : q.data.isPrefixOf p.data = false)
    (hp : strStartsWith s p = true) : strStartsWith s q = false := by
  by_contra hq
  rw [Bool.not_eq_false] at hq
  simp only [strStartsWith, List.isPrefixOf_iff_prefix] at hp hq
  rcases List.prefix_or_prefix_of_prefix hp hq with h | h
  · rw [← List.isPrefixOf_iff_prefix] at h
    simp [h] at hpq
  · rw [← List.isPrefixOf_iff_prefix] at h
    simp [h] at hqp

/-- The stripped validation trigger in closed form: Python's `strip()`
removes exactly the leading `"\n    "` and the final newline, because the
statement's fixed text ends in `");"`. -/
theorem pyStrip_validation_trigger (s n t : String) :
    pyStrip (VALIDATION_TRIGGER s n t) =
      "CREATE TRIGGER " ++ s ++ "_" ++ n ++ "_validation BEFORE INSERT ON " ++ t ++
      "\n        FOR EACH ROW EXECUTE FUNCTION " ++ s ++ ".validate_" ++ n ++ "();" := by
  have hlit1 : "\n    CREATE TRIGGER ".data.dropWhile Char.isWhitespace =
      "CREATE TRIGGER ".data := rfl
  have hlit2 : ("();\n".data.reverse).dropWhile Char.isWhitespace = [';', ')', '('] := rfl
  apply String.ext
  simp only [pyStrip, VALIDATION_TRIGGER, strData_append, List.append_assoc]
  rw [List.dropWhile_append]
  simp only [hlit1]
  norm_num [List.reverse_append, List.dropWhile_append, hlit2, List.reverse_reverse]
  rw [List.dropWhile_cons, if_pos (by decide), List.dropWhile_cons,
    if_neg (by decide)]

/-- The rendered `VALIDATION_PROC` always begins with its fixed
`CREATE OR REPLACE FUNCTION` header. -/
theorem validation_proc_startsWith (a b c e f g h i j : String) :
    strStartsWith (VALIDATION_PROC a b c e f g h i j)
      "\nCREATE OR REPLACE FUNCTION " = true := by
  unfold VALIDATION_PROC
  repeat apply strStartsWith_append_right
  exact strStartsWith_append_left _ _

/-- A rendered `CREATE TABLE` statement begins with `CREATE TABLE
<name>`. -/
theorem mkCreateTable_startsWith (name : String) (fs : List String) :
    strStartsWith (mkCreateTable name fs) ("CREATE TABLE " ++ name) = true := by
  unfold mkCreateTable
  apply strStartsWith_append_right
  apply strStartsWith_append_right
  apply strStartsWith_append_right
  exact strStartsWith_refl _

/-- The stripped trigger statement begins with `CREATE TRIGGER `. -/
theorem strip_trigger_startsWith (s n t : String) :
    strStartsWith (pyStrip (VALIDATION_TRIGGER s n t)) "CREATE TRIGGER " = true := by
  rw [pyStrip_validation_trigger]
  repeat apply strStartsWith_append_right
  exact strStartsWith_append_left _ _

/-- Structure of a successful `add_fk_validation`: the rendered
procedure over the table's conditions, and the stripped trigger. -/
theorem addFkValidation_ok (d : Domain) (table : String)
    (pk : Option (List String)) (action : String) (target : Option String)
    (columns : List ColumnEntry) (pt : Option String)
    (fk : Option (List String)) (pr : String × String)
    (h : addFkValidation d table pk action target columns pt fk = .ok pr) :
    ∃ apk afk adup ptx pks fkcols,
      pk = some pks ∧ fk = some fkcols ∧
      pr = (VALIDATION_PROC (pyStr d.schema) (basename table) ptx
              (nullCondition pks) apk (eqCondition fkcols) afk
              (eqCondition pks) adup,
            pyStrip (VALIDATION_TRIGGER (pyStr d.schema) (basename table)
              table)) := by
  simp only [addFkValidation] at h
  split at h
  next e heq => exact Except.noConfusion h
  next a_dup a_fk a_pk heq =>
    cases pk with
    | none => simp [pyIter] at h
    | some pks =>
      simp only [pyIter] at h
      cases fk with
      | none => simp [pyIter] at h
      | some fkcols =>
        simp only [pyIter] at h
        cases hf : fqnOpt d pt with
        | error e => simp only [hf] at h; exact Except.noConfusion h
        | ok ptx =>
          simp only [hf] at h
          injection h with h'
          exact ⟨a_pk, a_fk, a_dup, ptx, pks, fkcols, rfl, rfl,
            h'.symm ▸ by simp [eqCondition, nullCondition]⟩

/-- Structure of a successful `invalid.records` block for a node that
declares the policy: an optional spillover `CREATE TABLE` over
`spillFeatures`, then the validation procedure, then the trigger. -/
theorem invalidRecordsStmts_ok (d : Domain) (tn : String)
    (pk : Option (List String)) (v : InvalidRecords)
    (fkinfo : Option (String × List String)) (cols : List ColumnEntry)
    (fs : List String) (vs : List String)
    (h : invalidRecordsStmts d tn pk (some v) fkinfo cols fs = .ok vs) :
    ∃ spill apk afk adup ptx pks fkcols,
      vs = spill ++
        [VALIDATION_PROC (pyStr d.schema) (basename (fqn d tn)) ptx
           (nullCondition pks) apk (eqCondition fkcols) afk
           (eqCondition pks) adup,
         pyStrip (VALIDATION_TRIGGER (pyStr d.schema) (basename (fqn d tn))
           (fqn d tn))] ∧
      (spill = [] ∨ ∃ t2s, spill = [mkCreateTable t2s (spillFeatures fs)]) := by
  simp only [invalidRecordsStmts] at h
  cases hsp : spilloverTableCore d tn (some v) with
  | error e => simp only [hsp] at h; exact Except.noConfusion h
  | ok t2 =>
    simp only [hsp] at h
    cases haf : addFkValidation d (fqn d tn) pk (pyLower v.action) t2 cols
        (fkinfo.map Prod.fst) (fkinfo.map Prod.snd) with
    | error e => simp only [haf] at h; exact Except.noConfusion h
    | ok pr =>
      obtain ⟨apk, afk, adup, ptx, pks, fkcols, hpk, hfk, hpr⟩ :=
        addFkValidation_ok d (fqn d tn) pk (pyLower v.action) t2 cols
          (fkinfo.map Prod.fst) (fkinfo.map Prod.snd) pr haf
      obtain ⟨proc, trig⟩ := pr
      simp only [haf] at h
      injection h with h'
      injection hpr with hproc htrig
      subst hproc htrig
      cases t2 with
      | none =>
        exact ⟨[], apk, afk, adup, ptx, pks, fkcols, by simpa using h'.symm,
          Or.inl rfl⟩
      | some t2s =>
        refine ⟨[mkCreateTable t2s (spillFeatures fs)], apk, afk, adup, ptx,
          pks, fkcols, ?_, Or.inr ⟨t2s, rfl⟩⟩
        simpa [spillFeatures] using h'.symm

/-- Structure of a successful `ddl_for_node`: its DDL output is its own
`CREATE TABLE` over the rendered features, then the `invalid.records`
statements, then (when a `children` key is present) the children's
output. -/
theorem ddlForNode_ok_struct (d : Domain) (fuel : Nat) (tn : String)
    (cols : List ColumnEntry) (pk : Option (List String))
    (inv : Option InvalidRecords) (ch : Option (List (String × TableDef)))
    (par : Option ParentInfo) (res : TableDef × List String × List String)
    (h : ddlForNode d (fuel + 1) tn (.mk cols pk inv ch) par = .ok res) :
    ∃ fkinfo COLS feats vs,
      checkParent par cols = .ok (fkinfo, COLS) ∧
      invalidRecordsStmts d tn pk inv fkinfo COLS feats = .ok vs ∧
      ((ch = none ∧ res.2.1 = mkCreateTable (fqn d tn) feats :: vs) ∨
       (∃ cs r3, ch = some cs ∧
         ddlForChildren d fuel ⟨tn, pk, COLS⟩ cs = .ok r3 ∧
         res.2.1 = (mkCreateTable (fqn d tn) feats :: vs) ++ r3.2.1)) := by
  simp only [ddlForNode] at h
  cases hcp : checkParent par cols with
  | error e => simp only [hcp] at h; exact Except.noConfusion h
  | ok p =>
    obtain ⟨fkinfo, COLS⟩ := p
    simp only [hcp] at h
    cases hcs : columnSpecs COLS with
    | error e => simp only [hcs] at h; exact Except.noConfusion h
    | ok cf =>
      simp only [hcs] at h
      cases hinv : invalidRecordsStmts d tn pk inv fkinfo COLS
          (cf ++ pkFeatureOpt pk ++ fkFeatureOpt d tn fkinfo) with
      | error e => simp only [hinv] at h; exact Except.noConfusion h
      | ok vs =>
        simp only [hinv] at h
        cases hidx : indexStmtsFor d (fqn d tn) COLS with
        | error e => simp only [hidx] at h; exact Except.noConfusion h
        | ok idxStmts =>
          simp only [hidx] at h
          cases ch with
          | none =>
            injection h with h'
            subst h'
            exact ⟨fkinfo, COLS, _, vs, rfl, hinv, Or.inl ⟨rfl, rfl⟩⟩
          | some cs =>
            cases hch : ddlForChildren d fuel ⟨tn, pk, COLS⟩ cs with
            | error e => simp only [hch] at h; exact Except.noConfusion h
            | ok r3 =>
              obtain ⟨cs', cdd, cii⟩ := r3
              simp only [hch] at h
              injection h with h'
              subst h'
              exact ⟨fkinfo, COLS, _, vs, rfl, hinv,
                Or.inr ⟨cs, (cs', cdd, cii), rfl, hch, rfl⟩⟩

/-- Every statement of a successful `invalid.records` block has a node
statement shape. -/
theorem invalidRecordsStmts_shape (d : Domain) (tn : String)
    (pk : Option (List String)) (inv : Option InvalidRecords)
    (fkinfo : Option (String × List String)) (cols : List ColumnEntry)
    (fs : List String) (vs : List String)
    (h : invalidRecordsStmts d tn pk inv fkinfo cols fs = .ok vs) :
    ∀ x ∈ vs, nodeStmtShape x := by
  cases inv with
  | none =>
    simp only [invalidRecordsStmts] at h
    injection h with h'
    subst h'
    intro x hx
    simp at hx
  | some v =>
    obtain ⟨spill, apk, afk, adup, ptx, pks, fkcols, hvs, hsp⟩ :=
      invalidRecordsStmts_ok d tn pk v fkinfo cols fs vs h
    subst hvs
    intro x hx
    rcases List.mem_append.mp hx with hx | hx
    · rcases hsp with rfl | ⟨t2s, rfl⟩
      · simp at hx
      · have hx' : x = mkCreateTable t2s (spillFeatures fs) := by simpa using hx
        subst hx'
        exact Or.inl (strStartsWith_trans (mkCreateTable_startsWith _ _)
          (strStartsWith_append_left _ _))
    · rcases (by simpa using hx :
        x = VALIDATION_PROC (pyStr d.schema) (basename (fqn d tn)) ptx
          (nullCondition pks) apk (eqCondition fkcols) afk (eqCondition pks)
          adup ∨
        x = pyStrip (VALIDATION_TRIGGER (pyStr d.schema) (basename (fqn d tn))
          (fqn d tn))) with rfl | rfl
      · exact Or.inr (Or.inl (validation_proc_startsWith _ _ _ _ _ _ _ _ _))
      · exact Or.inr (Or.inr (strip_trigger_startsWith _ _ _))

/-- Every statement any compilation appends to the DDL list (below the
schema statements) has a node statement shape. -/
theorem shapeAll : ∀ fuel : Nat,
    (∀ (d : Domain) (tn : String) (deff : TableDef) (par : Option ParentInfo)
      (res : TableDef × List String × List String),
      ddlForNode d fuel tn deff par = .ok res →
      ∀ x ∈ res.2.1, nodeStmtShape x) ∧
    (∀ (d : Domain) (par : ParentInfo) (cs : List (String × TableDef))
      (res : List (String × TableDef) × List String × List String),
      ddlForChildren d fuel par cs = .ok res →
      ∀ x ∈ res.2.1, nodeStmtShape x) ∧
    (∀ (d : Domain) (ts : List (String × TableDef))
      (res : List (String × TableDef) × List String × List String),
      ddlForRoots d fuel ts = .ok res →
      ∀ x ∈ res.2.1, nodeStmtShape x) := by
  intro fuel
  induction fuel with
  | zero =>
    refine ⟨?_, ?_, ?_⟩
    · intro d tn deff par res h
      simp [ddlForNode] at h
    · intro d par cs res h
      simp [ddlForChildren] at h
    · intro d ts res h
      simp [ddlForRoots] at h
  | succ n ih =>
    obtain ⟨ihN, ihC, ihR⟩ := ih
    refine ⟨?_, ?_, ?_⟩
    · intro d tn deff par res h x hx
      obtain ⟨cols, pk, inv, ch⟩ := deff
      obtain ⟨fkinfo, COLS, feats, vs, hcp, hinv, hrest⟩ :=
        ddlForNode_ok_struct d n tn cols pk inv ch par res h
      rcases hrest with ⟨_, hout⟩ | ⟨cs, r3, hch, hcall, hout⟩
      · rw [hout] at hx
        rcases List.mem_cons.mp hx with rfl | hx
        · exact Or.inl (strStartsWith_trans (mkCreateTable_startsWith _ _)
            (strStartsWith_append_left _ _))
        · exact invalidRecordsStmts_shape d tn pk inv fkinfo COLS feats vs hinv x hx
      · rw [hout] at hx
        rcases List.mem_append.mp hx with hx | hx
        · rcases List.mem_cons.mp hx with rfl | hx
          · exact Or.inl (strStartsWith_trans (mkCreateTable_startsWith _ _)
              (strStartsWith_append_left _ _))
          · exact invalidRecordsStmts_shape d tn pk inv fkinfo COLS feats vs hinv x hx
        · exact ihC d ⟨tn, pk, COLS⟩ cs r3 hcall x hx
    · intro d par cs res h x hx
      cases cs with
      | nil =>
        simp only [ddlForChildren] at h
        injection h with h'
        subst h'
        simp at hx
      | cons hd tl =>
        obtain ⟨cn, cd⟩ := hd
        simp only [ddlForChildren] at h
        cases h1 : ddlForNode d n cn cd (some par) with
        | error e => simp only [h1] at h; exact Except.noConfusion h
        | ok r1 =>
          simp only [h1] at h
          obtain ⟨cd', dd, ii⟩ := r1
          cases h2 : ddlForChildren d n par tl with
          | error e => simp only [h2] at h; exact Except.noConfusion h
          | ok r2 =>
            simp only [h2] at h
            obtain ⟨tl', dd2, ii2⟩ := r2
            injection h with h'
            subst h'
            rcases List.mem_append.mp hx with hx | hx
            · exact ihN d cn cd (some par) (cd', dd, ii) h1 x hx
            · exact ihC d par tl (tl', dd2, ii2) h2 x hx
    · intro d ts res h x hx
      cases ts with
      | nil =>
        simp only [ddlForRoots] at h
        injection h with h'
        subst h'
        simp at hx
      | cons hd tl =>
        obtain ⟨cn, cd⟩ := hd
        simp only [ddlForRoots] at h
        cases h1 : ddlForNode d n cn cd none with
        | error e => simp only [h1] at h; exact Except.noConfusion h
        | ok r1 =>
          simp only [h1] at h
          obtain ⟨cd', dd, ii⟩ := r1
          cases h2 : ddlForRoots d n tl with
          | error e => simp only [h2] at h; exact Except.noConfusion h
          | ok r2 =>
            simp only [h2] at h
            obtain ⟨tl', dd2, ii2⟩ := r2
            injection h with h'
            subst h'
            rcases List.mem_append.mp hx with hx | hx
            · exact ihN d cn cd none (cd', dd, ii) h1 x hx
            · exact ihR d tl (tl', dd2, ii2) h2 x hx

/-- Decomposition of a successful `init`: the schema statements followed
by the root loop's output. -/
theorem initDomain_ok (d : Domain) (fuel : Nat)
    (res : List (String × TableDef) × List String × List String)
    (h : initDomain d fuel = .ok res) :
    ∃ r, ddlForRoots d fuel d.tables = .ok r ∧
      res.2.1 = schemaStmtsOf d ++ r.2.1 := by
  simp only [initDomain] at h
  cases hr : ddlForRoots d fuel d.tables with
  | error e => simp only [hr] at h; exact Except.noConfusion h
  | ok r =>
    obtain ⟨t2, dd, ii⟩ := r
    simp only [hr] at h
    injection h with h'
    subst h'
    exact ⟨(t2, dd, ii), rfl, rfl⟩

/-- Every schema statement starts with `CREATE SCHEMA `. -/
theorem schemaStmtsOf_startsWith (d : Domain) :
    ∀ x ∈ schemaStmtsOf d, strStartsWith x "CREATE SCHEMA " = true := by
  intro x hx
  have hpref : strStartsWith "CREATE SCHEMA IF NOT EXISTS " "CREATE SCHEMA " = true := by
    decide
  rcases List.mem_append.mp hx with hx | hx
  · rcases hd : d.schema with _ | s
    · rw [hd] at hx; simp at hx
    · rw [hd] at hx
      have hx' : x = "CREATE SCHEMA IF NOT EXISTS " ++ s ++ ";" := by
        simpa using hx
      subst hx'
      rw [String.append_assoc]
      exact strStartsWith_trans (strStartsWith_append_left _ _) hpref
  · obtain ⟨s, _, hx'⟩ := List.mem_map.mp hx
    subst hx'
    rw [String.append_assoc]
    exact strStartsWith_trans (strStartsWith_append_left _ _) hpref

/-- A node-shaped statement never starts with `CREATE SCHEMA `. -/
theorem nodeStmtShape_not_schema (x : String) (hx : nodeStmtShape x) :
    strStartsWith x "CREATE SCHEMA " = false := by
  rcases hx with hx | hx | hx
  · exact startsWith_conflict (by decide) (by decide) hx
  · exact startsWith_conflict (by decide) (by decide) hx
  · exact startsWith_conflict (by decide) (by decide) hx

/-- A schema statement never starts with `CREATE TABLE `. -/
theorem schema_not_table (x : String)
    (hx : strStartsWith x "CREATE SCHEMA " = true) :
    strStartsWith x "CREATE TABLE " = false :=
  startsWith_conflict (by decide) (by decide) hx

/-- A successful node compilation's DDL output begins with the node's
own `CREATE TABLE`. -/
theorem ddlForNode_head_create (d : Domain) (fuel : Nat) (tn : String)
    (deff : TableDef) (par : Option ParentInfo)
    (res : TableDef × List String × List String)
    (h : ddlForNode d (fuel + 1) tn deff par = .ok res) :
    ∃ feats rest, res.2.1 = mkCreateTable (fqn d tn) feats :: rest := by
  obtain ⟨cols, pk, inv, ch⟩ := deff
  obtain ⟨fkinfo, COLS, feats, vs, hcp, hinv, hrest⟩ :=
    ddlForNode_ok_struct d fuel tn cols pk inv ch par res h
  rcases hrest with ⟨_, hout⟩ | ⟨cs, r3, hch, hcall, hout⟩
  · exact ⟨feats, vs, hout⟩
  · exact ⟨feats, vs ++ r3.2.1, by rw [hout]; simp⟩

/-- Every node of the tree a compilation run traverses contributes its
own output as a contiguous segment of the accumulated DDL. -/
theorem segAll : ∀ fuel : Nat,
    (∀ (d : Domain) (m : String) (md : TableDef) (par : Option ParentInfo)
      (r0 : TableDef × List String × List String)
      (cs : List (String × TableDef)) (n : String) (nd : TableDef),
      ddlForNode d fuel m md par = .ok r0 →
      TableDef.children md = some cs → NodeIn cs n nd →
      DdlSegment d n nd r0.2.1) ∧
    (∀ (d : Domain) (par : ParentInfo) (ts : List (String × TableDef))
      (res : List (String × TableDef) × List String × List String)
      (n : String) (nd : TableDef),
      ddlForChildren d fuel par ts = .ok res → NodeIn ts n nd →
      DdlSegment d n nd res.2.1) ∧
    (∀ (d : Domain) (ts : List (String × TableDef))
      (res : List (String × TableDef) × List String × List String)
      (n : String) (nd : TableDef),
      ddlForRoots d fuel ts = .ok res → NodeIn ts n nd →
      DdlSegment d n nd res.2.1) := by
  intro fuel
  induction fuel with
  | zero =>
    refine ⟨?_, ?_, ?_⟩
    · intro d m md par r0 cs n nd h
      simp [ddlForNode] at h
    · intro d par ts res n nd h
      simp [ddlForChildren] at h
    · intro d ts res n nd h
      simp [ddlForRoots] at h
  | succ f ih =>
    obtain ⟨ihA, ihB, ihC⟩ := ih
    refine ⟨?_, ?_, ?_⟩
    · intro d m md par r0 cs n nd h hch hin
      obtain ⟨cols, pk, inv, ch⟩ := md
      simp only [TableDef.children] at hch
      subst hch
      obtain ⟨fkinfo, COLS, feats, vs, hcp, hinv, hrest⟩ :=
        ddlForNode_ok_struct d f m cols pk inv (some cs) par r0 h
      rcases hrest with ⟨hcontra, _⟩ | ⟨cs2, r3, hcseq, hcall, hout⟩
      · exact Option.noConfusion hcontra
      · injection hcseq with hcseq
        subst hcseq
        obtain ⟨g, p, r, pre, post, hr, hseg⟩ :=
          ihB d ⟨m, pk, COLS⟩ cs r3 n nd hcall hin
        exact ⟨g, p, r, (mkCreateTable (fqn d m) feats :: vs) ++ pre, post, hr,
          by rw [hout, hseg]; simp⟩
    · intro d par ts res n nd h hin
      cases ts with
      | nil =>
        cases hin with
        | here hmem => exact absurd hmem (List.not_mem_nil _)
        | deeper hmem hch hin => exact absurd hmem (List.not_mem_nil _)
      | cons hd tl =>
        obtain ⟨cn, cd⟩ := hd
        simp only [ddlForChildren] at h
        cases h1 : ddlForNode d f cn cd (some par) with
        | error e => simp only [h1] at h; exact Except.noConfusion h
        | ok r1 =>
          simp only [h1] at h
          obtain ⟨cd2, dd1, ii1⟩ := r1
          cases h2 : ddlForChildren d f par tl with
          | error e => simp only [h2] at h; exact Except.noConfusion h
          | ok r2 =>
            simp only [h2] at h
            obtain ⟨tl2, dd2, ii2⟩ := r2
            injection h with h3
            subst h3
            cases hin with
            | here hmem =>
              rcases List.mem_cons.mp hmem with heq | hmem2
              · obtain ⟨rfl, rfl⟩ := Prod.mk.injEq .. ▸ heq
                cases f with
                | zero => simp [ddlForNode] at h1
                | succ g =>
                  exact ⟨g, some par, (cd2, dd1, ii1), [], dd2, h1, by simp⟩
              · obtain ⟨g, p, r, pre, post, hr, hseg⟩ :=
                  ihB d par tl (tl2, dd2, ii2) n nd h2 (NodeIn.here hmem2)
                have hs : dd2 = pre ++ r.2.1 ++ post := hseg
                exact ⟨g, p, r, dd1 ++ pre, post, hr, by rw [hs]; simp⟩
            | deeper hmem hch hin2 =>
              rcases List.mem_cons.mp hmem with heq | hmem2
              · obtain ⟨rfl, rfl⟩ := Prod.mk.injEq .. ▸ heq
                obtain ⟨g, p, r, pre, post, hr, hseg⟩ :=
                  ihA d _ _ (some par) (cd2, dd1, ii1) _ n nd h1 hch hin2
                have hs : dd1 = pre ++ r.2.1 ++ post := hseg
                exact ⟨g, p, r, pre, post ++ dd2, hr, by rw [hs]; simp⟩
              · obtain ⟨g, p, r, pre, post, hr, hseg⟩ :=
                  ihB d par tl (tl2, dd2, ii2) n nd h2
                    (NodeIn.deeper hmem2 hch hin2)
                have hs : dd2 = pre ++ r.2.1 ++ post := hseg
                exact ⟨g, p, r, dd1 ++ pre, post, hr, by rw [hs]; simp⟩
    · intro d ts res n nd h hin
      cases ts with
      | nil =>
        cases hin with
        | here hmem => exact absurd hmem (List.not_mem_nil _)
        | deeper hmem hch hin => exact absurd hmem (List.not_mem_nil _)
      | cons hd tl =>
        obtain ⟨cn, cd⟩ := hd
        simp only [ddlForRoots] at h
        cases h1 : ddlForNode d f cn cd none with
        | error e => simp only [h1] at h; exact Except.noConfusion h
        | ok r1 =>
          simp only [h1] at h
          obtain ⟨cd2, dd1, ii1⟩ := r1
          cases h2 : ddlForRoots d f tl with
          | error e => simp only [h2] at h; exact Except.noConfusion h
          | ok r2 =>
            simp only [h2] at h
            obtain ⟨tl2, dd2, ii2⟩ := r2
            injection h with h3
            subst h3
            cases hin with
            | here hmem =>
              rcases List.mem_cons.mp hmem with heq | hmem2
              · obtain ⟨rfl, rfl⟩ := Prod.mk.injEq .. ▸ heq
                cases f with
                | zero => simp [ddlForNode] at h1
                | succ g =>
                  exact ⟨g, none, (cd2, dd1, ii1), [], dd2, h1, by simp⟩
              · obtain ⟨g, p, r, pre, post, hr, hseg⟩ :=
                  ihC d tl (tl2, dd2, ii2) n nd h2 (NodeIn.here hmem2)
                have hs : dd2 = pre ++ r.2.1 ++ post := hseg
                exact ⟨g, p, r, dd1 ++ pre, post, hr, by rw [hs]; simp⟩
            | deeper hmem hch hin2 =>
              rcases List.mem_cons.mp hmem with heq | hmem2
              · obtain ⟨rfl, rfl⟩ := Prod.mk.injEq .. ▸ heq
                obtain ⟨g, p, r, pre, post, hr, hseg⟩ :=
                  ihA d _ _ none (cd2, dd1, ii1) _ n nd h1 hch hin2
                have hs : dd1 = pre ++ r.2.1 ++ post := hseg
                exact ⟨g, p, r, pre, post ++ dd2, hr, by rw [hs]; simp⟩
              · obtain ⟨g, p, r, pre, post, hr, hseg⟩ :=
                  ihC d tl (tl2, dd2, ii2) n nd h2
                    (NodeIn.deeper hmem2 hch hin2)
                have hs : dd2 = pre ++ r.2.1 ++ post := hseg
                exact ⟨g, p, r, dd1 ++ pre, post, hr, by rw [hs]; simp⟩

/-- Each child's `CREATE TABLE` occurs in the output of the child loop. -/
theorem ddlForChildren_child_create : ∀ (fuel : Nat) (d : Domain)
    (par : ParentInfo) (cs : List (String × TableDef))
    (res : List (String × TableDef) × List String × List String)
    (cn : String) (cd : TableDef),
    ddlForChildren d fuel par cs = .ok res → (cn, cd) ∈ cs →
    ∃ pre fc post, res.2.1 = pre ++ mkCreateTable (fqn d cn) fc :: post := by
  intro fuel
  induction fuel with
  | zero =>
    intro d par cs res cn cd h
    simp [ddlForChildren] at h
  | succ f ih =>
    intro d par cs res cn cd h hmem
    cases cs with
    | nil => exact absurd hmem (List.not_mem_nil _)
    | cons hd tl =>
      obtain ⟨n1, d1⟩ := hd
      simp only [ddlForChildren] at h
      cases h1 : ddlForNode d f n1 d1 (some par) with
      | error e => simp only [h1] at h; exact Except.noConfusion h
      | ok r1 =>
        simp only [h1] at h
        obtain ⟨cd2, dd1, ii1⟩ := r1
        cases h2 : ddlForChildren d f par tl with
        | error e => simp only [h2] at h; exact Except.noConfusion h
        | ok r2 =>
          simp only [h2] at h
          obtain ⟨tl2, dd2, ii2⟩ := r2
          injection h with h3
          subst h3
          rcases List.mem_cons.mp hmem with heq | hmem2
          · obtain ⟨rfl, rfl⟩ := Prod.mk.injEq .. ▸ heq
            cases f with
            | zero => simp [ddlForNode] at h1
            | succ g =>
              obtain ⟨fc, rest, hhead⟩ :=
                ddlForNode_head_create d g cn cd (some par) (cd2, dd1, ii1) h1
              have hs : dd1 = mkCreateTable (fqn d cn) fc :: rest := hhead
              exact ⟨[], fc, rest ++ dd2, by rw [hs]; simp⟩
          · obtain ⟨pre, fc, post, hseg⟩ :=
              ih d par tl (tl2, dd2, ii2) cn cd h2 hmem2
            have hs : dd2 = pre ++ mkCreateTable (fqn d cn) fc :: post := hseg
            exact ⟨dd1 ++ pre, fc, post, by rw [hs]; simp⟩

/-- Within one node's own output, the node's `CREATE TABLE` comes first
and each child's `CREATE TABLE` comes later. -/
theorem ddlForNode_parent_before_child (d : Domain) (g : Nat) (pn : String)
    (pd : TableDef) (p : Option ParentInfo)
    (r : TableDef × List String × List String)
    (cs : List (String × TableDef)) (cn : String) (cd : TableDef)
    (h : ddlForNode d (g + 1) pn pd p = .ok r)
    (hch : TableDef.children pd = some cs) (hmem : (cn, cd) ∈ cs) :
    ∃ fp l2 fc l3, r.2.1 =
      mkCreateTable (fqn d pn) fp ::
        (l2 ++ mkCreateTable (fqn d cn) fc :: l3) := by
  obtain ⟨cols, pk, inv, ch⟩ := pd
  simp only [TableDef.children] at hch
  subst hch
  obtain ⟨fkinfo, COLS, feats, vs, hcp, hinv, hrest⟩ :=
    ddlForNode_ok_struct d g pn cols pk inv (some cs) p r h
  rcases hrest with ⟨hcontra, _⟩ | ⟨cs2, r3, hcseq, hcall, hout⟩
  · exact Option.noConfusion hcontra
  · injection hcseq with hcseq
    subst hcseq
    obtain ⟨pre, fc, post, hseg⟩ :=
      ddlForChildren_child_create g d ⟨pn, pk, COLS⟩ cs r3 cn cd hcall hmem
    exact ⟨feats, vs ++ pre, fc, post, by rw [hout, hseg]; simp⟩

/-- Within one node's own output, a declared `invalid.records` policy
puts the validation procedure and trigger strictly after the node's own
`CREATE TABLE`. -/
theorem ddlForNode_validation_after_create (d : Domain) (g : Nat)
    (n : String) (nd : TableDef) (p : Option ParentInfo)
    (r : TableDef × List String × List String) (v : InvalidRecords)
    (h : ddlForNode d (g + 1) n nd p = .ok r)
    (hinvr : TableDef.invalid_records nd = some v) :
    ∃ F l2 l3 apk afk adup ptx pks fkcols, r.2.1 =
      mkCreateTable (fqn d n) F ::
        (l2 ++
          VALIDATION_PROC (pyStr d.schema) (basename (fqn d n)) ptx
            (nullCondition pks) apk (eqCondition fkcols) afk
            (eqCondition pks) adup ::
          pyStrip (VALIDATION_TRIGGER (pyStr d.schema) (basename (fqn d n))
            (fqn d n)) :: l3) := by
  obtain ⟨cols, pk, inv, ch⟩ := nd
  simp only [TableDef.invalid_records] at hinvr
  subst hinvr
  obtain ⟨fkinfo, COLS, feats, vs, hcp, hinv, hrest⟩ :=
    ddlForNode_ok_struct d g n cols pk (some v) ch p r h
  obtain ⟨spill, apk, afk, adup, ptx, pks, fkcols, hvs, hsp⟩ :=
    invalidRecordsStmts_ok d n pk v fkinfo COLS feats vs hinv
  rcases hrest with ⟨_, hout⟩ | ⟨cs2, r3, hcseq, hcall, hout⟩
  · exact ⟨feats, spill, [], apk, afk, adup, ptx, pks, fkcols,
      by rw [hout, hvs]⟩
  · exact ⟨feats, spill, r3.2.1, apk, afk, adup, ptx, pks, fkcols,
      by rw [hout, hvs]; simp⟩

/-- In a list whose head block is all `CREATE SCHEMA ` statements and
whose tail block is all node statements, every schema statement precedes
every table statement. -/
theorem schema_before_table_in_append (S T : List String)
    (hS : ∀ x ∈ S, strStartsWith x "CREATE SCHEMA " = true)
    (hT : ∀ x ∈ T, nodeStmtShape x)
    (i j : Nat) (hi : i < (S ++ T).length) (hj : j < (S ++ T).length)
    (hsi : strStartsWith (S ++ T)[i] "CREATE SCHEMA " = true)
    (htj : strStartsWith (S ++ T)[j] "CREATE TABLE " = true) : i < j := by
  have hi2 : i < S.length + T.length := by simpa using hi
  have hiS : i < S.length := by
    by_contra hge
    push_neg at hge
    have hb : i - S.length < T.length := by omega
    have he : (S ++ T)[i] = T[i - S.length] := List.getElem_append_right hge
    have hshape := hT _ (List.getElem_mem hb)
    rw [he, nodeStmtShape_not_schema _ hshape] at hsi
    exact Bool.noConfusion hsi
  have hjS : S.length ≤ j := by
    by_contra hlt
    push_neg at hlt
    have he : (S ++ T)[j] = S[j] := List.getElem_append_left hlt
    have hx := hS _ (List.getElem_mem hlt)
    rw [he, schema_not_table _ hx] at htj
    exact Bool.noConfusion htj
  omega

/-- C8: within one domain's accumulated DDL statement list, every
`CREATE SCHEMA` statement precedes every `CREATE TABLE` statement; for
every parented table the parent's `CREATE TABLE` appears before the
child's; and for every table declaring `invalid.records` the validation
procedure and trigger appear after that table's own `CREATE TABLE`. -/
theorem C8_ddl_ordering (d : Domain) (fuel : Nat)
    (res : List (String × TableDef) × List String × List String)
    (h : initDomain d fuel = .ok res) :
    (∀ i j (hi : i < res.2.1.length) (hj : j < res.2.1.length),
      strStartsWith res.2.1[i] "CREATE SCHEMA " = true →
      strStartsWith res.2.1[j] "CREATE TABLE " = true → i < j) ∧
    (∀ pn pd cs cn cd, NodeIn d.tables pn pd →
      TableDef.children pd = some cs → (cn, cd) ∈ cs →
      ∃ l1 fp l2 fc l3, res.2.1 =
        l1 ++ mkCreateTable (fqn d pn) fp ::
          (l2 ++ mkCreateTable (fqn d cn) fc :: l3)) ∧
    (∀ n nd v, NodeIn d.tables n nd →
      TableDef.invalid_records nd = some v →
      ∃ l1 F l2 l3 apk afk adup ptx pks fkcols, res.2.1 =
        l1 ++ mkCreateTable (fqn d n) F ::
          (l2 ++
            VALIDATION_PROC (pyStr d.schema) (basename (fqn d n)) ptx
              (nullCondition pks) apk (eqCondition fkcols) afk
              (eqCondition pks) adup ::
            pyStrip (VALIDATION_TRIGGER (pyStr d.schema)
              (basename (fqn d n)) (fqn d n)) :: l3)) := by
  obtain ⟨rt, ddl, ix⟩ := res
  obtain ⟨r, hroots, hres⟩ := initDomain_ok d fuel (rt, ddl, ix) h
  have hd : ddl = schemaStmtsOf d ++ r.2.1 := hres
  subst hd
  refine ⟨?_, ?_, ?_⟩
  · intro i j hi hj hsi htj
    exact schema_before_table_in_append (schemaStmtsOf d) r.2.1
      (schemaStmtsOf_startsWith d) ((shapeAll fuel).2.2 d d.tables r hroots)
      i j hi hj hsi htj
  · intro pn pd cs cn cd hin hch hmem
    have hsegd : DdlSegment d pn pd r.2.1 :=
      (segAll fuel).2.2 d d.tables r pn pd hroots hin
    obtain ⟨g, p, rr, pre, post, hrr, hseg⟩ := hsegd
    obtain ⟨fp, l2, fc, l3, hout⟩ :=
      ddlForNode_parent_before_child d g pn pd p rr cs cn cd hrr hch hmem
    refine ⟨schemaStmtsOf d ++ pre, fp, l2, fc, l3 ++ post, ?_⟩
    show schemaStmtsOf d ++ r.2.1 = _
    rw [hseg, hout]
    simp
  · intro n nd v hin hinvr
    have hsegd : DdlSegment d n nd r.2.1 :=
      (segAll fuel).2.2 d d.tables r n nd hroots hin
    obtain ⟨g, p, rr, pre, post, hrr, hseg⟩ := hsegd
    obtain ⟨F, l2, l3, apk, afk, adup, ptx, pks, fkcols, hout⟩ :=
      ddlForNode_validation_after_create d g n nd p rr v hrr hinvr
    refine ⟨schemaStmtsOf d ++ pre, F, l2, l3 ++ post, apk, afk, adup, ptx,
      pks, fkcols, ?_⟩
    show schemaStmtsOf d ++ r.2.1 = _
    rw [hseg, hout]
    simp

set_option maxRecDepth 8000 in

/-- Witness for C8: the ordering theorem applied to the concrete example
domain, with every hypothesis discharged on concrete input. -/
theorem C8_ddl_ordering_witness :
    (initDomain exD8 6 = .ok exD8compiled ∧ (0 : Nat) < 1) ∧
    (∃ l1 fp l2 fc l3, exD8compiled.2.1 =
       l1 ++ mkCreateTable (fqn exD8 "orders") fp ::
         (l2 ++ mkCreateTable (fqn exD8 "line_items") fc :: l3)) ∧
    (∃ l1 F l2 l3 apk afk adup ptx pks fkcols, exD8compiled.2.1 =
       l1 ++ mkCreateTable (fqn exD8 "line_items") F ::
         (l2 ++
           VALIDATION_PROC (pyStr exD8.schema)
             (basename (fqn exD8 "line_items")) ptx (nullCondition pks)
             apk (eqCondition fkcols) afk (eqCondition pks) adup ::
           pyStrip (VALIDATION_TRIGGER (pyStr exD8.schema)
             (basename (fqn exD8 "line_items")) (fqn exD8 "line_items")) ::
           l3)) := by
  have hok : initDomain exD8 6 = .ok exD8compiled := by rfl
  have hthm := C8_ddl_ordering exD8 6 exD8compiled hok
  refine ⟨⟨hok, ?_⟩, ?_, ?_⟩
  · exact hthm.1 0 1 (by decide) (by decide) (by decide) (by decide)
  · exact hthm.2.1 "orders" exD8Orders [("line_items", exD8Child)]
      "line_items" exD8Child (NodeIn.here (List.Mem.head _)) rfl
      (List.Mem.head _)
  · exact hthm.2.2 "line_items" exD8Child
      { action := "insert",
        target := some { schema := some "aux", table := some "bad_lines" } }
      (NodeIn.deeper (List.Mem.head _) rfl (NodeIn.here (List.Mem.head _)))
      rfl
